import Mathlib

/-!
Shallow embedding of the parsl DataFlowKernel (src/parsl/dataflow/dflow.py)
and the thin PythonApp glue (src/parsl/app/python_app.py).

Python futures are modelled as entries of a store mapping a future id to its
settlement state; Python argument values are modelled two levels deep (a value
is either a scalar, a future reference, or a flat list of scalars and future
references), which suffices for the kernel because both the dependency
analyzer and the resolver deliberately inspect only the top level of each
argument group.  Mutation is modelled by explicit state passing; an exception
that escapes a kernel entry point is modelled by an error flag carried next
to the post-mutation state, because in Python the mutations performed before
the raise persist.
-/

namespace Parsl

/-- Errors that can settle a future or escape a kernel entry point. -/
inductive PyErr where
  | userErr (n : Nat)
  | depErr (errs : List PyErr)

/-- Settlement state of a one-shot future cell. -/
inductive FutState where
  | unset
  | val (v : Int)
  | err (e : PyErr)

/-- Future.done() : a future is done once it is settled with a value or an error. -/
def FutState.done : FutState → Bool
  | .unset => false
  | .val _ => true
  | .err _ => true

/-- Atom of a Python argument: a plain scalar or a reference to a future. -/
inductive PyBase where
  | const (v : Int)
  | fut (i : Nat)
deriving DecidableEq

/-- Top-level Python argument value: an atom, or a flat list of atoms
(the shape used for the inputs keyword and for nested containers the
analyzer does not descend into). -/
inductive PyVal where
  | base (b : PyBase)
  | listV (els : List PyBase)
deriving DecidableEq

/-- The store of future cells, newest binding first. -/
abbrev Store := List (Nat × FutState)

/-- Read a future cell; an id never written reads as unset. -/
def Store.get (σ : Store) (i : Nat) : FutState :=
  (σ.lookup i).getD .unset

/-- Settle (or create) a future cell. -/
def Store.set (σ : Store) (i : Nat) (s : FutState) : Store :=
  (i, s) :: σ

/-- Kwargs.get with the inputs key: the kernel treats the value of the
inputs keyword as a list of values (interface contract of submit; a
non-list value would already fail iteration in the Python source and is
not modelled). -/
def getInputs (kwargs : List (String × PyVal)) : List PyBase :=
  match kwargs.lookup "inputs" with
  | some (.listV l) => l
  | _ => []

/-- Loop body of DataFlowKernel._count_all_deps over one group of top-level
values: every future is appended to depends, and counted iff not done. -/
def scanVals (σ : Store) : List PyVal → Nat × List Nat
  | [] => (0, [])
  | .base (.fut i) :: rest =>
    let p := scanVals σ rest
    ((if (Store.get σ i).done then 0 else 1) + p.1, i :: p.2)
  | _ :: rest => scanVals σ rest

/-- Same loop over the elements of the inputs list. -/
def scanBases (σ : Store) : List PyBase → Nat × List Nat
  | [] => (0, [])
  | .fut i :: rest =>
    let p := scanBases σ rest
    ((if (Store.get σ i).done then 0 else 1) + p.1, i :: p.2)
  | _ :: rest => scanBases σ rest

/-- DataFlowKernel._count_all_deps: inspect positional args, keyword values,
and the elements of kwargs[inputs]; return the unsettled count and the list
of dependencies (all futures found, settled or not). -/
def _count_all_deps (σ : Store) (args : List PyVal)
    (kwargs : List (String × PyVal)) : Nat × List Nat :=
  let p1 := scanVals σ args
  let p2 := scanVals σ (kwargs.map Prod.snd)
  let p3 := scanBases σ (getInputs kwargs)
  (p1.1 + p2.1 + p3.1, p1.2 ++ p2.2 ++ p3.2)

/-- DataFlowKernel._count_deps: count the unresolved futures in depends
(every element of a depends list is a future by construction). -/
def _count_deps (σ : Store) : List Nat → Nat
  | [] => 0
  | d :: rest => (if (Store.get σ d).done then 0 else 1) + _count_deps σ rest

/-- Resolver loop over positional args: a value-settled future is replaced
by its value, an error-settled future contributes its error to the failure
list (and is dropped from the rebuilt list), a non-future passes through.
Calling result() on an unsettled future would block forever; that
divergence is modelled as none. -/
def sanitizeArgs (σ : Store) : List PyVal → Option (List PyVal × List PyErr)
  | [] => some ([], [])
  | .base (.fut i) :: rest =>
    match Store.get σ i with
    | .unset => none
    | .val v =>
      match sanitizeArgs σ rest with
      | none => none
      | some p => some (.base (.const v) :: p.1, p.2)
    | .err e =>
      match sanitizeArgs σ rest with
      | none => none
      | some p => some (p.1, e :: p.2)
  | v :: rest =>
    match sanitizeArgs σ rest with
    | none => none
    | some p => some (v :: p.1, p.2)

/-- Resolver loop over keyword entries: a value-settled future value is
replaced in place; on error the entry keeps the future and the error is
collected (the Python except branch does not assign). -/
def sanitizeKwargs (σ : Store) :
    List (String × PyVal) → Option (List (String × PyVal) × List PyErr)
  | [] => some ([], [])
  | (k, .base (.fut i)) :: rest =>
    match Store.get σ i with
    | .unset => none
    | .val v =>
      match sanitizeKwargs σ rest with
      | none => none
      | some p => some ((k, .base (.const v)) :: p.1, p.2)
    | .err e =>
      match sanitizeKwargs σ rest with
      | none => none
      | some p => some ((k, .base (.fut i)) :: p.1, e :: p.2)
  | kv :: rest =>
    match sanitizeKwargs σ rest with
    | none => none
    | some p => some (kv :: p.1, p.2)

/-- Resolver loop over the elements of the inputs list (same policy as the
positional args loop). -/
def sanitizeInputs (σ : Store) : List PyBase → Option (List PyBase × List PyErr)
  | [] => some ([], [])
  | .fut i :: rest =>
    match Store.get σ i with
    | .unset => none
    | .val v =>
      match sanitizeInputs σ rest with
      | none => none
      | some p => some (.const v :: p.1, p.2)
    | .err e =>
      match sanitizeInputs σ rest with
      | none => none
      | some p => some (p.1, e :: p.2)
  | b :: rest =>
    match sanitizeInputs σ rest with
    | none => none
    | some p => some (b :: p.1, p.2)

/-- Replace the value stored under one key of a kwargs dict. -/
def setKey (kwargs : List (String × PyVal)) (key : String) (v : PyVal) :
    List (String × PyVal) :=
  kwargs.map (fun kv => if kv.1 = key then (kv.1, v) else kv)

/-- DataFlowKernel.sanitize_and_wrap: substitute the settled value of every
top-level future in args, keyword values and the inputs list, collecting the
errors of error-settled futures; returns the triple, never raising (the
task-id parameter of the source is unused there and omitted). -/
def sanitize_and_wrap (σ : Store) (args : List PyVal)
    (kwargs : List (String × PyVal)) :
    Option (List PyVal × List (String × PyVal) × List PyErr) :=
  match sanitizeArgs σ args with
  | none => none
  | some pa =>
    match sanitizeKwargs σ kwargs with
    | none => none
    | some pk =>
      match pk.1.lookup "inputs" with
      | some (.listV l) =>
        match sanitizeInputs σ l with
        | none => none
        | some pi =>
          some (pa.1, setKey pk.1 "inputs" (.listV pi.1),
                pa.2 ++ pk.2 ++ pi.2)
      | _ => some (pa.1, pk.1, pa.2 ++ pk.2)

/-- Task states (parsl.dataflow.states.States, as enumerated in
write_status_log). -/
inductive States where
  | unsched
  | pending
  | runnable
  | running
  | done
  | failed
  | dep_fail
deriving DecidableEq

/-- Value of the parsl_sites argument: the string sentinel or an explicit
site list. -/
inductive Sites where
  | str (s : String)
  | list (l : List String)
deriving DecidableEq

/-- Modelled from the spec (the AppFuture class of parsl.dataflow.futures is
not under src): a handle with a mutable parent pointer to an underlying
executor future and a one-shot own state written by a direct
set_exception. -/
structure AppFu where
  parent : Option Nat
  ownState : FutState

/-- Modelled from the spec: the externally observable settlement of an app
handle.  A directly settled handle reports its own state; otherwise parent
rebinding transparently forwards the settlement of the parent future. -/
def AppFu.observe (a : AppFu) (σ : Store) : FutState :=
  match a.ownState with
  | .unset =>
    match a.parent with
    | some p => Store.get σ p
    | none => .unset
  | s => s

/-- One entry of DataFlowKernel.tasks (the task_def dict built in submit;
the callback and func_name fields carry no behavior and are omitted, func
is a plain numeric tag). -/
structure TaskRecord where
  depends : List Nat
  sites : Sites
  func : Nat
  args : List PyVal
  kwargs : List (String × PyVal)
  dep_cnt : Nat
  exec_fu : Option Nat
  status : States
  app_fu : AppFu

/-- Observable call of executor.submit: which site received which task. -/
inductive Event where
  | submitEv (site : String) (taskId : Nat)
deriving DecidableEq

/-- Task id tagged on a trace event. -/
def Event.taskId : Event → Nat
  | .submitEv _ t => t

/-- An exception escaping a kernel entry point (Python mutations made before
the raise persist, so the post-state is carried alongside). -/
inductive Crash where
  | typeError
  | attributeError
  | indexError
  | keyError
  | duplicateTaskError
  | blocked
  | appExn (e : PyErr)

/-- The DataFlowKernel state: task-id counter, task table (insertion
order), future store with an allocator for fresh executor futures, the
executor registry (site names), the two configuration flags, and the trace
of executor submissions. -/
structure Kernel where
  task_count : Nat
  tasks : List (Nat × TaskRecord)
  futs : Store
  next_fut : Nat
  executors : List String
  lazy_fail : Bool
  fail_retries : Nat
  trace : List Event

/-- Python str.lower for the sentinel comparison, written over the character
list so that it evaluates inside the kernel. -/
def strLower (s : String) : String :=
  String.mk (s.data.map Char.toLower)

/-- Pointwise update of the task table at one id. -/
def updAt (i : Nat) (f : TaskRecord → TaskRecord) :
    List (Nat × TaskRecord) → List (Nat × TaskRecord)
  | [] => []
  | (a, b) :: rest => (if a = i then (a, f b) else (a, b)) :: updAt i f rest

/-- Update one task record in the kernel. -/
def setTask (k : Kernel) (i : Nat) (f : TaskRecord → TaskRecord) : Kernel :=
  { k with tasks := updAt i f k.tasks }

/-- Settlement of a future by the environment (an executor finishing). -/
def settleFut (k : Kernel) (i : Nat) (s : FutState) : Kernel :=
  { k with futs := Store.set k.futs i s }

/-- Body of executor.submit as seen by the kernel: allocate a fresh
executor future (initially unset) and record the submission event. -/
def doSubmit (k : Kernel) (task_id : Nat) (site : String) : Kernel × Nat :=
  let fid := k.next_fut
  ({ k with next_fut := fid + 1,
            futs := (fid, FutState.unset) :: k.futs,
            trace := k.trace ++ [Event.submitEv site task_id] }, fid)

/-- DataFlowKernel.launch_task.  The random.choice calls are modelled by an
oracle index pick taken modulo the population size, so every element is a
possible choice.  The sentinel string is compared case-insensitively against
the literal string all.  Failure modes follow the source: an empty registry
in the sentinel branch raises IndexError from random.choice uncaught; in the
explicit-list branch every selection failure (empty list, or a chosen site
absent from the registry) is caught and then re-raised as a TypeError,
because the except handler applies a two-placeholder format string to a
single argument; a sites value that is neither the sentinel nor a list
leaves executor as None, and calling submit on it raises AttributeError. -/
def launch_task (k : Kernel) (task_id : Nat) (pick : Nat) :
    Except Crash (Kernel × Nat) :=
  match k.tasks.lookup task_id with
  | none => .error .keyError
  | some r =>
    match r.sites with
    | .str s =>
      if strLower s = "all" then
        if k.executors.isEmpty then .error .indexError
        else
          let site := k.executors.getD (pick % k.executors.length) ""
          .ok (doSubmit k task_id site)
      else .error .attributeError
    | .list l =>
      if l.isEmpty then .error .typeError
      else
        let site := l.getD (pick % l.length) ""
        if k.executors.contains site then .ok (doSubmit k task_id site)
        else .error .typeError

/-- One iteration of the completion sweep in handle_update, for the task
tid, where task_id is the task whose completion triggered the sweep.  A
non-pending tid is skipped.  A pending tid whose dependencies all settled is
resolved; with no dependency errors it is set running and launched, and the
returned executor future is stored both on the record of task_id (the
assignment at dflow.py line 168, keyed by the completing task) and on the
record of tid, whose app handle parent is also rebound; with dependency
errors tid is set dep_fail and a fresh plain future, rebound as parent,
settles with the DependencyError. -/
def sweepOne (task_id : Nat) (picks : Nat → Nat) (k : Kernel) (tid : Nat) :
    Kernel × Option Crash :=
  match k.tasks.lookup tid with
  | none => (k, none)
  | some r =>
    if r.status = States.pending then
      if _count_deps k.futs r.depends = 0 then
        match sanitize_and_wrap k.futs r.args r.kwargs with
        | none => (k, some .blocked)
        | some res =>
          let exceptions := res.2.2
          if exceptions.isEmpty then
            let k1 := setTask k tid (fun s => { s with status := .running })
            match launch_task k1 tid (picks tid) with
            | .error c => (k1, some c)
            | .ok kf =>
              let k2 := kf.1
              let fid := kf.2
              let k3 := setTask k2 task_id (fun s => { s with exec_fu := some fid })
              let k4 := setTask k3 tid (fun s =>
                { s with app_fu := { s.app_fu with parent := some fid },
                         exec_fu := some fid })
              (k4, none)
          else
            let k1 := setTask k tid (fun s => { s with status := .dep_fail })
            let f := k1.next_fut
            let k2 := { k1 with next_fut := f + 1,
                                futs := (f, FutState.unset) :: k1.futs }
            let k3 := setTask k2 tid (fun s =>
              { s with exec_fu := some f,
                       app_fu := { s.app_fu with parent := some f } })
            let k4 := { k3 with
                        futs := Store.set k3.futs f
                          (.err (.depErr exceptions)) }
            (k4, none)
      else (k, none)
    else (k, none)

/-- The completion sweep over a snapshot of the task-table keys, stopping at
the first escaping exception. -/
def sweep (task_id : Nat) (picks : Nat → Nat) (k : Kernel) :
    List Nat → Kernel × Option Crash
  | [] => (k, none)
  | t :: rest =>
    match sweepOne task_id picks k t with
    | (k1, some c) => (k1, some c)
    | (k1, none) => sweep task_id picks k1 rest

/-- DataFlowKernel.handle_update, the callback registered on every launched
executor future.  If the completing future is done: in eager-fail mode an
error is re-raised after marking the task failed; otherwise the task is
marked done (also when the future settled with an error, in lazy-fail
mode).  The sweep over the whole task table then promotes and launches
newly runnable pending tasks. -/
def handle_update (k : Kernel) (task_id : Nat) (fu : Nat)
    (picks : Nat → Nat) : Kernel × Option Crash :=
  let fstate := Store.get k.futs fu
  if fstate.done then
    match k.lazy_fail, fstate with
    | false, .err e =>
      (setTask k task_id (fun r => { r with status := .failed }),
       some (.appExn e))
    | _, _ =>
      let k1 := setTask k task_id (fun r => { r with status := .done })
      sweep task_id picks k1 (k1.tasks.map Prod.fst)
  else
    sweep task_id picks k (k.tasks.map Prod.fst)

/-- DataFlowKernel.submit.  Allocates the next task id, analyzes
dependencies, inserts the task record (raising DuplicateTaskError first if
the id is already present), then either launches immediately (dep_cnt = 0,
no dependency errors), fails the task with a DependencyError (dep_cnt = 0,
dependency errors), or parks it pending with a parent-less app handle.
Returns the post-state together with the returned app handle or the
escaping exception. -/
def submit (k : Kernel) (func : Nat) (args : List PyVal)
    (kwargs : List (String × PyVal)) (parsl_sites : Sites) (pick : Nat) :
    Kernel × Except Crash (Nat × AppFu) :=
  let task_id := k.task_count
  let k0 := { k with task_count := task_id + 1 }
  let cd := _count_all_deps k0.futs args kwargs
  let base : TaskRecord :=
    { depends := cd.2, sites := parsl_sites, func := func, args := args,
      kwargs := kwargs, dep_cnt := cd.1, exec_fu := none,
      status := .unsched, app_fu := { parent := none, ownState := .unset } }
  if (k0.tasks.lookup task_id).isSome then
    (k0, .error .duplicateTaskError)
  else
    let k1 := { k0 with tasks := k0.tasks ++ [(task_id, base)] }
    if cd.1 = 0 then
      match sanitize_and_wrap k1.futs args kwargs with
      | none => (k1, .error .blocked)
      | some res =>
        let exceptions := res.2.2
        if exceptions.isEmpty then
          match launch_task k1 task_id pick with
          | .error c => (k1, .error c)
          | .ok kf =>
            let afu : AppFu := { parent := some kf.2, ownState := .unset }
            let k3 := setTask kf.1 task_id (fun s =>
              { s with exec_fu := some kf.2, app_fu := afu,
                       status := .running })
            (k3, .ok (task_id, afu))
        else
          let afu : AppFu :=
            { parent := none, ownState := .err (.depErr exceptions) }
          let k2 := setTask k1 task_id (fun s =>
            { s with exec_fu := none, app_fu := afu, status := .dep_fail })
          (k2, .ok (task_id, afu))
    else
      let afu : AppFu := { parent := none, ownState := .unset }
      let k2 := setTask k1 task_id (fun s =>
        { s with app_fu := afu, status := .pending })
      (k2, .ok (task_id, afu))

/-- The unmanaged-executors branch of DataFlowKernel constructed from an
executor list, with explicit lazy_fail and fail_retries arguments. -/
def dfkNew (executors : List String) (lazy_fail : Bool)
    (fail_retries : Nat) : Kernel :=
  { task_count := 0, tasks := [], futs := [], next_fut := 0,
    executors := executors, lazy_fail := lazy_fail,
    fail_retries := fail_retries, trace := [] }

/-- DataFlowKernel with the signature defaults lazy_fail True and
fail_retries 2. -/
def dfkDefault (executors : List String) : Kernel :=
  dfkNew executors true 2

/-- Top-level future id of a value, if any. -/
def valFut : PyVal → Option Nat
  | .base (.fut i) => some i
  | _ => none

/-- Future id of an inputs element, if any. -/
def baseFut : PyBase → Option Nat
  | .fut i => some i
  | _ => none

/-- Stated from the spec for the refinement claim about the analyzer: the
handles found at the top level of the positional args, the keyword values,
and the elements of the inputs list, in inspection order, without
descending into containers. -/
def topHandles (args : List PyVal) (kwargs : List (String × PyVal)) :
    List Nat :=
  args.filterMap valFut ++ (kwargs.map Prod.snd).filterMap valFut
    ++ (getInputs kwargs).filterMap baseFut

/-- Errors of the error-settled futures at the top level of a value group,
in order. -/
def errsOfV (σ : Store) (vs : List PyVal) : List PyErr :=
  vs.filterMap (fun v => match v with
    | .base (.fut i) =>
      match Store.get σ i with
      | .err e => some e
      | _ => none
    | _ => none)

/-- Errors of the error-settled futures among inputs elements, in order. -/
def errsOfB (σ : Store) (bs : List PyBase) : List PyErr :=
  bs.filterMap (fun b => match b with
    | .fut i =>
      match Store.get σ i with
      | .err e => some e
      | _ => none
    | _ => none)

/-- All errors of error-settled dependencies of a submission, in the
traversal order of the resolver. -/
def errsAll (σ : Store) (args : List PyVal)
    (kwargs : List (String × PyVal)) : List PyErr :=
  errsOfV σ args ++ errsOfV σ (kwargs.map Prod.snd)
    ++ errsOfB σ (getInputs kwargs)

/-- Substitution of one settled value: a value-settled future becomes its
value, everything else (scalars, containers, error-settled futures) passes
through unchanged. -/
def resolveOne (σ : Store) : PyVal → PyVal
  | .base (.fut i) =>
    match Store.get σ i with
    | .val x => .base (.const x)
    | _ => .base (.fut i)
  | v => v

/-- The positional-args list rebuilt by the resolver: value-settled futures
substituted, error-settled futures dropped, other values kept. -/
def resolveVals (σ : Store) (vs : List PyVal) : List PyVal :=
  vs.filterMap (fun v => match v with
    | .base (.fut i) =>
      match Store.get σ i with
      | .val x => some (.base (.const x))
      | .err _ => none
      | .unset => some (.base (.fut i))
    | w => some w)

/-- The inputs list rebuilt by the resolver. -/
def resolveBases (σ : Store) (bs : List PyBase) : List PyBase :=
  bs.filterMap (fun b => match b with
    | .fut i =>
      match Store.get σ i with
      | .val x => some (.const x)
      | .err _ => none
      | .unset => some (.fut i)
    | c => some c)

/-- Substitution of one settled inputs element. -/
def resolveOneB (σ : Store) : PyBase → PyBase
  | .fut i =>
    match Store.get σ i with
    | .val x => .const x
    | _ => .fut i
  | c => c

/-- The kwargs dict rebuilt by the keyword loop of the resolver. -/
def resolveKw (σ : Store) (kws : List (String × PyVal)) :
    List (String × PyVal) :=
  kws.map (fun kv => (kv.1, resolveOne σ kv.2))

/-- The kwargs dict returned by the resolver, with the inputs entry
rebuilt element-wise. -/
def resolveKwFull (σ : Store) (kws : List (String × PyVal)) :
    List (String × PyVal) :=
  match kws.lookup "inputs" with
  | some (.listV l) =>
    setKey (resolveKw σ kws) "inputs" (.listV (resolveBases σ l))
  | _ => resolveKw σ kws

/-- The events of a trace that submitted a given task to an executor. -/
def tracesFor (tid : Nat) (tr : List Event) : List Event :=
  tr.filter (fun ev => ev.taskId == tid)

/-- Every task id in the table is below the id counter. -/
def idsBounded (k : Kernel) : Prop :=
  ∀ p ∈ k.tasks, p.1 < k.task_count

/-- Concrete one-site kernel with a zero-dependency task launched at
submit time (its executor future has id 0 and is still unset). -/
def demoS1 : Kernel :=
  (submit (dfkDefault ["cpu"]) 0 [] [] (.str "all") 0).1

/-- The one-task run after its executor future settles with an error and
the completion callback runs (lazy-fail mode). -/
def demoErr : Kernel × Option Crash :=
  handle_update (settleFut demoS1 0 (.err (.userErr 7))) 0 0 (fun _ => 0)

/-- Two-task run: task 1 depends on the executor future of task 0 and is
pending. -/
def demoS2 : Kernel :=
  (submit demoS1 1 [.base (.fut 0)] [] (.str "all") 0).1

/-- Two-task run after the future of task 0 settles with a value and its
completion callback sweeps. -/
def demoDone : Kernel × Option Crash :=
  handle_update (settleFut demoS2 0 (.val 5)) 0 0 (fun _ => 0)

/-- Two-task run with the future of task 0 settled with an error, before the
completion callback. -/
def demoC : Kernel :=
  settleFut demoS2 0 (.err (.userErr 3))

/-- The completion callback on the errored run. -/
def demoCres : Kernel × Option Crash :=
  handle_update demoC 0 0 (fun _ => 0)

/-- The task record of the pending task 1 in the errored two-task run. -/
def demoRec1 : TaskRecord :=
  { depends := [0], sites := .str "all", func := 1,
    args := [.base (.fut 0)], kwargs := [], dep_cnt := 1,
    exec_fu := none, status := States.pending,
    app_fu := { parent := none, ownState := FutState.unset } }

/-- One-task run with its future already errored, before a second
submission. -/
def demoE : Kernel :=
  settleFut demoS1 0 (.err (.userErr 3))

/-- Submission whose only dependency already settled with an error. -/
def demoE2 : Kernel × Except Crash (Nat × AppFu) :=
  submit demoE 1 [.base (.fut 0)] [] (.str "all") 0

/-- Eager-fail kernel with one launched task whose future errored. -/
def demoEager : Kernel :=
  settleFut (submit (dfkNew ["cpu"] false 2) 0 [] [] (.str "all") 0).1
    0 (.err (.userErr 9))

/-- The task record of the launched task in the eager-fail run. -/
def demoEagerRec : TaskRecord :=
  { depends := [], sites := .str "all", func := 0,
    args := [], kwargs := [], dep_cnt := 0,
    exec_fu := some 0, status := States.running,
    app_fu := { parent := some 0, ownState := FutState.unset } }

lemma nat_beq_false {i a : Nat} (h : i ≠ a) : (i == a) = false := by
  simp only [beq_eq_false_iff_ne]
  exact h

lemma lookup_updAt_self (i : Nat) (f : TaskRecord → TaskRecord) :
    ∀ l : List (Nat × TaskRecord),
      List.lookup i (updAt i f l) = (List.lookup i l).map f := by
  intro l
  induction l with
  | nil => rfl
  | cons p rest ih =>
    obtain ⟨a, b⟩ := p
    by_cases h : a = i
    · subst h
      simp only [updAt, if_pos rfl]
      simp [List.lookup]
    · have h2 : (i == a) = false := nat_beq_false (fun hh => h hh.symm)
      simp only [updAt, if_neg h]
      simp only [List.lookup, h2]
      exact ih

lemma lookup_updAt_ne (i j : Nat) (f : TaskRecord → TaskRecord)
    (hne : j ≠ i) :
    ∀ l : List (Nat × TaskRecord),
      List.lookup j (updAt i f l) = List.lookup j l := by
  intro l
  induction l with
  | nil => rfl
  | cons p rest ih =>
    obtain ⟨a, b⟩ := p
    by_cases h : a = i
    · subst h
      have h2 : (j == a) = false := nat_beq_false hne
      simp only [updAt, if_pos rfl]
      simp only [List.lookup, h2]
      exact ih
    · simp only [updAt, if_neg h]
      by_cases h3 : j = a
      · subst h3
        simp [List.lookup]
      · have h4 : (j == a) = false := nat_beq_false h3
        simp only [List.lookup, h4]
        exact ih

lemma keys_updAt (i : Nat) (f : TaskRecord → TaskRecord)
    (l : List (Nat × TaskRecord)) :
    (updAt i f l).map Prod.fst = l.map Prod.fst := by
  induction l with
  | nil => rfl
  | cons p rest ih =>
    obtain ⟨a, b⟩ := p
    by_cases h : a = i
    · subst h
      simp only [updAt, if_pos rfl, List.map_cons]
      exact congrArg (fun t => a :: t) ih
    · simp only [updAt, if_neg h, List.map_cons]
      exact congrArg (fun t => a :: t) ih

lemma lookup_append_right {α : Type} [BEq α] {β : Type} (i : α)
    (l1 l2 : List (α × β)) (h : List.lookup i l1 = none) :
    List.lookup i (l1 ++ l2) = List.lookup i l2 := by
  induction l1 with
  | nil => simp
  | cons p rest ih =>
    by_cases hh : (i == p.1) = true
    · simp [List.lookup, hh] at h
    · simp [List.lookup, hh] at h ⊢
      exact ih h

lemma lookup_append_left {α : Type} [BEq α] {β : Type} (i : α)
    (l1 l2 : List (α × β)) {r : β} (h : List.lookup i l1 = some r) :
    List.lookup i (l1 ++ l2) = some r := by
  induction l1 with
  | nil => simp [List.lookup] at h
  | cons p rest ih =>
    by_cases hh : (i == p.1) = true
    · simp [List.lookup, hh] at h ⊢
      exact h
    · simp [List.lookup, hh] at h ⊢
      exact ih h

lemma mem_keys_of_lookup {l : List (Nat × TaskRecord)} {i : Nat}
    {r : TaskRecord} (h : List.lookup i l = some r) :
    i ∈ l.map Prod.fst := by
  induction l with
  | nil => simp [List.lookup] at h
  | cons p rest ih =>
    cases hbe : (i == p.1) with
    | true =>
      have hi : i = p.1 := beq_iff_eq.mp hbe
      simp [List.map_cons, hi]
    | false =>
      simp only [List.lookup, hbe] at h
      simp only [List.map_cons]
      exact List.mem_cons_of_mem _ (ih h)

lemma scanVals_snd (σ : Store) (vs : List PyVal) :
    (scanVals σ vs).2 = vs.filterMap valFut := by
  induction vs with
  | nil => rfl
  | cons v rest ih =>
    cases v with
    | base b =>
      cases b with
      | const x => simpa [scanVals, valFut, List.filterMap_cons] using ih
      | fut i => simp [scanVals, valFut, List.filterMap_cons, ih]
    | listV l => simpa [scanVals, valFut, List.filterMap_cons] using ih

lemma scanBases_snd (σ : Store) (bs : List PyBase) :
    (scanBases σ bs).2 = bs.filterMap baseFut := by
  induction bs with
  | nil => rfl
  | cons b rest ih =>
    cases b with
    | const x => simpa [scanBases, baseFut, List.filterMap_cons] using ih
    | fut i => simp [scanBases, baseFut, List.filterMap_cons, ih]

lemma scanVals_fst (σ : Store) (vs : List PyVal) :
    (scanVals σ vs).1
      = ((vs.filterMap valFut).filter
          (fun i => !(Store.get σ i).done)).length := by
  induction vs with
  | nil => rfl
  | cons v rest ih =>
    cases v with
    | base b =>
      cases b with
      | const x => simpa [scanVals, valFut, List.filterMap_cons] using ih
      | fut i =>
        by_cases hd : (Store.get σ i).done = true
        · simp [scanVals, valFut, List.filterMap_cons, List.filter_cons,
                hd, ih]
        · have hd2 : (Store.get σ i).done = false := by
            cases hdd : (Store.get σ i).done
            · rfl
            · exact absurd hdd hd
          simp [scanVals, valFut, List.filterMap_cons, List.filter_cons,
                hd2, ih]
          omega
    | listV l => simpa [scanVals, valFut, List.filterMap_cons] using ih

lemma scanBases_fst (σ : Store) (bs : List PyBase) :
    (scanBases σ bs).1
      = ((bs.filterMap baseFut).filter
          (fun i => !(Store.get σ i).done)).length := by
  induction bs with
  | nil => rfl
  | cons b rest ih =>
    cases b with
    | const x => simpa [scanBases, baseFut, List.filterMap_cons] using ih
    | fut i =>
      by_cases hd : (Store.get σ i).done = true
      · simp [scanBases, baseFut, List.filterMap_cons, List.filter_cons,
              hd, ih]
      · have hd2 : (Store.get σ i).done = false := by
          cases hdd : (Store.get σ i).done
          · rfl
          · exact absurd hdd hd
        simp [scanBases, baseFut, List.filterMap_cons, List.filter_cons,
              hd2, ih]
        omega

lemma count_all_deps_snd (σ : Store) (args : List PyVal)
    (kwargs : List (String × PyVal)) :
    (_count_all_deps σ args kwargs).2 = topHandles args kwargs := by
  simp [_count_all_deps, topHandles, scanVals_snd, scanBases_snd]

lemma count_all_deps_fst (σ : Store) (args : List PyVal)
    (kwargs : List (String × PyVal)) :
    (_count_all_deps σ args kwargs).1
      = ((topHandles args kwargs).filter
          (fun i => !(Store.get σ i).done)).length := by
  simp [_count_all_deps, topHandles, scanVals_fst, scanBases_fst,
        List.filter_append]
  omega

lemma count_all_deps_fst_zero_iff (σ : Store) (args : List PyVal)
    (kwargs : List (String × PyVal)) :
    (_count_all_deps σ args kwargs).1 = 0
      ↔ ∀ i ∈ (_count_all_deps σ args kwargs).2,
          (Store.get σ i).done = true := by
  rw [count_all_deps_fst, count_all_deps_snd, List.length_eq_zero,
      List.filter_eq_nil_iff]
  constructor
  · intro h i hi
    have := h i hi
    cases hdd : (Store.get σ i).done
    · exact absurd (by simp [hdd]) this
    · rfl
  · intro h i hi
    simp [h i hi]

lemma count_deps_cons (σ : Store) (d : Nat) (rest : List Nat) :
    _count_deps σ (d :: rest)
      = (if (Store.get σ d).done then 0 else 1) + _count_deps σ rest := rfl

lemma count_deps_zero_iff (σ : Store) (l : List Nat) :
    _count_deps σ l = 0 ↔ ∀ i ∈ l, (Store.get σ i).done = true := by
  induction l with
  | nil => simp [_count_deps]
  | cons d rest ih =>
    cases hdd : (Store.get σ d).done with
    | true => simp [count_deps_cons, hdd, ih]
    | false =>
      constructor
      · intro h0
        exfalso
        rw [count_deps_cons, hdd] at h0
        simp at h0
      · intro h
        exact absurd (h d (List.mem_cons_self _ _)) (by simp [hdd])

lemma count_deps_congr (σ1 σ2 : Store) (l : List Nat)
    (h : ∀ i ∈ l, Store.get σ2 i = Store.get σ1 i) :
    _count_deps σ2 l = _count_deps σ1 l := by
  induction l with
  | nil => rfl
  | cons d rest ih =>
    have hd := h d (List.mem_cons_self _ _)
    have hr := fun i hi => h i (List.mem_cons_of_mem _ hi)
    simp [_count_deps, hd, ih hr]

lemma mem_filterMap_valFut {vs : List PyVal} {i : Nat} :
    i ∈ vs.filterMap valFut ↔ PyVal.base (.fut i) ∈ vs := by
  simp only [List.mem_filterMap]
  constructor
  · rintro ⟨v, hv, he⟩
    cases v with
    | base b =>
      cases b with
      | const x => simp [valFut] at he
      | fut j =>
        simp [valFut] at he
        subst he
        exact hv
    | listV l => simp [valFut] at he
  · intro h
    exact ⟨_, h, rfl⟩

lemma mem_filterMap_baseFut {bs : List PyBase} {i : Nat} :
    i ∈ bs.filterMap baseFut ↔ PyBase.fut i ∈ bs := by
  simp only [List.mem_filterMap]
  constructor
  · rintro ⟨b, hb, he⟩
    cases b with
    | const x => simp [baseFut] at he
    | fut j =>
      simp [baseFut] at he
      subst he
      exact hb
  · intro h
    exact ⟨_, h, rfl⟩

lemma store_get_cons (σ : Store) (j i : Nat) (s : FutState) :
    Store.get ((j, s) :: σ) i = if i = j then s else Store.get σ i := by
  by_cases h : i = j
  · subst h
    simp [Store.get, List.lookup]
  · have h2 : (i == j) = false := nat_beq_false h
    simp [Store.get, List.lookup, h2, h]

lemma errsOfV_congr (σ1 σ2 : Store) (vs : List PyVal)
    (h : ∀ i, PyVal.base (.fut i) ∈ vs → Store.get σ2 i = Store.get σ1 i) :
    errsOfV σ2 vs = errsOfV σ1 vs := by
  induction vs with
  | nil => rfl
  | cons v rest ih =>
    have hr : ∀ i, PyVal.base (.fut i) ∈ rest
        → Store.get σ2 i = Store.get σ1 i :=
      fun i hi => h i (List.mem_cons_of_mem _ hi)
    cases v with
    | base b =>
      cases b with
      | const x => simpa [errsOfV, List.filterMap_cons] using ih hr
      | fut i =>
        have hv := h i (List.mem_cons_self _ _)
        cases hg : Store.get σ1 i with
        | unset =>
          simp only [errsOfV, List.filterMap_cons, hv, hg]
          simpa [errsOfV] using ih hr
        | val x =>
          simp only [errsOfV, List.filterMap_cons, hv, hg]
          simpa [errsOfV] using ih hr
        | err e =>
          simp only [errsOfV, List.filterMap_cons, hv, hg]
          simpa [errsOfV] using ih hr
    | listV l => simpa [errsOfV, List.filterMap_cons] using ih hr

lemma errsOfB_congr (σ1 σ2 : Store) (bs : List PyBase)
    (h : ∀ i, PyBase.fut i ∈ bs → Store.get σ2 i = Store.get σ1 i) :
    errsOfB σ2 bs = errsOfB σ1 bs := by
  induction bs with
  | nil => rfl
  | cons b rest ih =>
    have hr : ∀ i, PyBase.fut i ∈ rest
        → Store.get σ2 i = Store.get σ1 i :=
      fun i hi => h i (List.mem_cons_of_mem _ hi)
    cases b with
    | const x => simpa [errsOfB, List.filterMap_cons] using ih hr
    | fut i =>
      have hv := h i (List.mem_cons_self _ _)
      cases hg : Store.get σ1 i with
      | unset =>
        simp only [errsOfB, List.filterMap_cons, hv, hg]
        simpa [errsOfB] using ih hr
      | val x =>
        simp only [errsOfB, List.filterMap_cons, hv, hg]
        simpa [errsOfB] using ih hr
      | err e =>
        simp only [errsOfB, List.filterMap_cons, hv, hg]
        simpa [errsOfB] using ih hr

lemma errsAll_congr (σ1 σ2 : Store) (args : List PyVal)
    (kwargs : List (String × PyVal))
    (h : ∀ i ∈ (_count_all_deps σ1 args kwargs).2,
        Store.get σ2 i = Store.get σ1 i) :
    errsAll σ2 args kwargs = errsAll σ1 args kwargs := by
  rw [count_all_deps_snd] at h
  have h1 : ∀ i, PyVal.base (.fut i) ∈ args
      → Store.get σ2 i = Store.get σ1 i := by
    intro i hi
    exact h i (by
      simp only [topHandles, List.mem_append]
      exact Or.inl (Or.inl (mem_filterMap_valFut.mpr hi)))
  have h2 : ∀ i, PyVal.base (.fut i) ∈ kwargs.map Prod.snd
      → Store.get σ2 i = Store.get σ1 i := by
    intro i hi
    exact h i (by
      simp only [topHandles, List.mem_append]
      exact Or.inl (Or.inr (mem_filterMap_valFut.mpr hi)))
  have h3 : ∀ i, PyBase.fut i ∈ getInputs kwargs
      → Store.get σ2 i = Store.get σ1 i := by
    intro i hi
    exact h i (by
      simp only [topHandles, List.mem_append]
      exact Or.inr (mem_filterMap_baseFut.mpr hi))
  simp [errsAll, errsOfV_congr _ _ _ h1, errsOfV_congr _ _ _ h2,
        errsOfB_congr _ _ _ h3]

lemma mem_errsOfV {σ : Store} {vs : List PyVal} {i : Nat} {e : PyErr}
    (hmem : PyVal.base (.fut i) ∈ vs) (he : Store.get σ i = .err e) :
    e ∈ errsOfV σ vs := by
  simp only [errsOfV, List.mem_filterMap]
  refine ⟨PyVal.base (.fut i), hmem, ?x⟩
  simp [he]

lemma mem_errsOfB {σ : Store} {bs : List PyBase} {i : Nat} {e : PyErr}
    (hmem : PyBase.fut i ∈ bs) (he : Store.get σ i = .err e) :
    e ∈ errsOfB σ bs := by
  simp only [errsOfB, List.mem_filterMap]
  refine ⟨PyBase.fut i, hmem, ?x⟩
  simp [he]

lemma errsAll_ne_nil {σ : Store} {args : List PyVal}
    {kwargs : List (String × PyVal)} {i : Nat} {e : PyErr}
    (hmem : i ∈ (_count_all_deps σ args kwargs).2)
    (he : Store.get σ i = .err e) :
    errsAll σ args kwargs ≠ [] := by
  rw [count_all_deps_snd] at hmem
  simp only [topHandles, List.mem_append] at hmem
  have : e ∈ errsAll σ args kwargs := by
    simp only [errsAll, List.mem_append]
    rcases hmem with (hv | hk) | hb
    · exact Or.inl (Or.inl (mem_errsOfV (mem_filterMap_valFut.mp hv) he))
    · exact Or.inl (Or.inr (mem_errsOfV (mem_filterMap_valFut.mp hk) he))
    · exact Or.inr (mem_errsOfB (mem_filterMap_baseFut.mp hb) he)
  exact List.ne_nil_of_mem this


lemma sanitizeArgs_settled (σ : Store) (vs : List PyVal)
    (h : ∀ i, PyVal.base (.fut i) ∈ vs → (Store.get σ i).done = true) :
    sanitizeArgs σ vs = some (resolveVals σ vs, errsOfV σ vs) := by
  induction vs with
  | nil => rfl
  | cons v rest ih =>
    have hr : ∀ i, PyVal.base (.fut i) ∈ rest
        → (Store.get σ i).done = true :=
      fun i hi => h i (List.mem_cons_of_mem _ hi)
    cases v with
    | base b =>
      cases b with
      | const x =>
        simp [sanitizeArgs, ih hr, resolveVals, errsOfV, List.filterMap_cons]
      | fut i =>
        have hd := h i (List.mem_cons_self _ _)
        cases hg : Store.get σ i with
        | unset =>
          rw [hg] at hd
          simp [FutState.done] at hd
        | val x =>
          simp [sanitizeArgs, hg, ih hr, resolveVals, errsOfV,
                List.filterMap_cons]
        | err e =>
          simp [sanitizeArgs, hg, ih hr, resolveVals, errsOfV,
                List.filterMap_cons]
    | listV l =>
      simp [sanitizeArgs, ih hr, resolveVals, errsOfV, List.filterMap_cons]

lemma sanitizeKwargs_settled (σ : Store) (kws : List (String × PyVal))
    (h : ∀ i, PyVal.base (.fut i) ∈ kws.map Prod.snd
        → (Store.get σ i).done = true) :
    sanitizeKwargs σ kws
      = some (resolveKw σ kws, errsOfV σ (kws.map Prod.snd)) := by
  induction kws with
  | nil => rfl
  | cons kv rest ih =>
    obtain ⟨key, v⟩ := kv
    have hr : ∀ i, PyVal.base (.fut i) ∈ rest.map Prod.snd
        → (Store.get σ i).done = true :=
      fun i hi => h i (List.mem_cons_of_mem _ hi)
    cases v with
    | base b =>
      cases b with
      | const x =>
        simp [sanitizeKwargs, ih hr, resolveKw, resolveOne, errsOfV,
              List.filterMap_cons]
      | fut i =>
        have hd := h i (List.mem_cons_self _ _)
        cases hg : Store.get σ i with
        | unset =>
          rw [hg] at hd
          simp [FutState.done] at hd
        | val x =>
          simp [sanitizeKwargs, hg, ih hr, resolveKw, resolveOne, errsOfV,
                List.filterMap_cons]
        | err e =>
          simp [sanitizeKwargs, hg, ih hr, resolveKw, resolveOne, errsOfV,
                List.filterMap_cons]
    | listV l =>
      simp [sanitizeKwargs, ih hr, resolveKw, resolveOne, errsOfV,
            List.filterMap_cons]

lemma sanitizeInputs_settled (σ : Store) (bs : List PyBase)
    (h : ∀ i, PyBase.fut i ∈ bs → (Store.get σ i).done = true) :
    sanitizeInputs σ bs = some (resolveBases σ bs, errsOfB σ bs) := by
  induction bs with
  | nil => rfl
  | cons b rest ih =>
    have hr : ∀ i, PyBase.fut i ∈ rest → (Store.get σ i).done = true :=
      fun i hi => h i (List.mem_cons_of_mem _ hi)
    cases b with
    | const x =>
      simp [sanitizeInputs, ih hr, resolveBases, errsOfB,
            List.filterMap_cons]
    | fut i =>
      have hd := h i (List.mem_cons_self _ _)
      cases hg : Store.get σ i with
      | unset =>
        rw [hg] at hd
        simp [FutState.done] at hd
      | val x =>
        simp [sanitizeInputs, hg, ih hr, resolveBases, errsOfB,
              List.filterMap_cons]
      | err e =>
        simp [sanitizeInputs, hg, ih hr, resolveBases, errsOfB,
              List.filterMap_cons]

lemma lookup_map_value (g : PyVal → PyVal) (key : String) :
    ∀ kws : List (String × PyVal),
      List.lookup key (kws.map (fun kv => (kv.1, g kv.2)))
        = (List.lookup key kws).map g := by
  intro kws
  induction kws with
  | nil => rfl
  | cons kv rest ih =>
    obtain ⟨a, b⟩ := kv
    cases hbe : (key == a) with
    | true => simp [List.lookup, hbe]
    | false =>
      simp only [List.map_cons, List.lookup, hbe]
      exact ih

lemma lookup_resolveKw (σ : Store) (key : String)
    (kws : List (String × PyVal)) :
    List.lookup key (resolveKw σ kws)
      = (List.lookup key kws).map (resolveOne σ) := by
  simpa [resolveKw] using lookup_map_value (resolveOne σ) key kws

lemma sanitize_settled (σ : Store) (args : List PyVal)
    (kwargs : List (String × PyVal))
    (h : ∀ i ∈ (_count_all_deps σ args kwargs).2,
        (Store.get σ i).done = true) :
    sanitize_and_wrap σ args kwargs
      = some (resolveVals σ args, resolveKwFull σ kwargs,
              errsAll σ args kwargs) := by
  rw [count_all_deps_snd] at h
  have h1 : ∀ i, PyVal.base (.fut i) ∈ args
      → (Store.get σ i).done = true := by
    intro i hi
    exact h i (by
      simp only [topHandles, List.mem_append]
      exact Or.inl (Or.inl (mem_filterMap_valFut.mpr hi)))
  have h2 : ∀ i, PyVal.base (.fut i) ∈ kwargs.map Prod.snd
      → (Store.get σ i).done = true := by
    intro i hi
    exact h i (by
      simp only [topHandles, List.mem_append]
      exact Or.inl (Or.inr (mem_filterMap_valFut.mpr hi)))
  have h3 : ∀ i, PyBase.fut i ∈ getInputs kwargs
      → (Store.get σ i).done = true := by
    intro i hi
    exact h i (by
      simp only [topHandles, List.mem_append]
      exact Or.inr (mem_filterMap_baseFut.mpr hi))
  simp only [sanitize_and_wrap, sanitizeArgs_settled σ args h1,
             sanitizeKwargs_settled σ kwargs h2, lookup_resolveKw]
  cases hlk : List.lookup "inputs" kwargs with
  | none => simp [resolveKwFull, errsAll, errsOfB, getInputs, hlk]
  | some v =>
    cases v with
    | base b =>
      cases b with
      | const x =>
        simp [resolveKwFull, errsAll, errsOfB, getInputs, hlk, resolveOne]
      | fut i =>
        cases hg : Store.get σ i with
        | unset =>
          simp [resolveKwFull, errsAll, errsOfB, getInputs, hlk,
                resolveOne, hg]
        | val x =>
          simp [resolveKwFull, errsAll, errsOfB, getInputs, hlk,
                resolveOne, hg]
        | err e =>
          simp [resolveKwFull, errsAll, errsOfB, getInputs, hlk,
                resolveOne, hg]
    | listV l =>
      have hin : ∀ i, PyBase.fut i ∈ l → (Store.get σ i).done = true := by
        intro i hi
        refine h3 i ?x
        simp [getInputs, hlk]
        exact hi
      simp [resolveKwFull, errsAll, getInputs, hlk, resolveOne,
            sanitizeInputs_settled σ l hin]

lemma resolveVals_of_no_errs (σ : Store) (vs : List PyVal)
    (h : ∀ i, PyVal.base (.fut i) ∈ vs → (Store.get σ i).done = true)
    (hne : errsOfV σ vs = []) :
    resolveVals σ vs = vs.map (resolveOne σ) := by
  induction vs with
  | nil => rfl
  | cons v rest ih =>
    have hr : ∀ i, PyVal.base (.fut i) ∈ rest
        → (Store.get σ i).done = true :=
      fun i hi => h i (List.mem_cons_of_mem _ hi)
    cases v with
    | base b =>
      cases b with
      | const x =>
        have hne2 : errsOfV σ rest = [] := by
          simpa [errsOfV, List.filterMap_cons] using hne
        simp [resolveVals, resolveOne, List.filterMap_cons]
        exact ih hr hne2
      | fut i =>
        have hd := h i (List.mem_cons_self _ _)
        cases hg : Store.get σ i with
        | unset =>
          rw [hg] at hd
          simp [FutState.done] at hd
        | val x =>
          have hne2 : errsOfV σ rest = [] := by
            simpa [errsOfV, List.filterMap_cons, hg] using hne
          simp [resolveVals, resolveOne, List.filterMap_cons, hg]
          exact ih hr hne2
        | err e =>
          exfalso
          simp [errsOfV, List.filterMap_cons, hg] at hne
    | listV l =>
      have hne2 : errsOfV σ rest = [] := by
        simpa [errsOfV, List.filterMap_cons] using hne
      simp [resolveVals, resolveOne, List.filterMap_cons]
      exact ih hr hne2

lemma resolveBases_of_no_errs (σ : Store) (bs : List PyBase)
    (h : ∀ i, PyBase.fut i ∈ bs → (Store.get σ i).done = true)
    (hne : errsOfB σ bs = []) :
    resolveBases σ bs = bs.map (resolveOneB σ) := by
  induction bs with
  | nil => rfl
  | cons b rest ih =>
    have hr : ∀ i, PyBase.fut i ∈ rest → (Store.get σ i).done = true :=
      fun i hi => h i (List.mem_cons_of_mem _ hi)
    cases b with
    | const x =>
      have hne2 : errsOfB σ rest = [] := by
        simpa [errsOfB, List.filterMap_cons] using hne
      simp [resolveBases, resolveOneB, List.filterMap_cons]
      exact ih hr hne2
    | fut i =>
      have hd := h i (List.mem_cons_self _ _)
      cases hg : Store.get σ i with
      | unset =>
        rw [hg] at hd
        simp [FutState.done] at hd
      | val x =>
        have hne2 : errsOfB σ rest = [] := by
          simpa [errsOfB, List.filterMap_cons, hg] using hne
        simp [resolveBases, resolveOneB, List.filterMap_cons, hg]
        exact ih hr hne2
      | err e =>
        exfalso
        simp [errsOfB, List.filterMap_cons, hg] at hne


@[simp] lemma setTask_futs (k : Kernel) (i : Nat)
    (f : TaskRecord → TaskRecord) : (setTask k i f).futs = k.futs := rfl

@[simp] lemma setTask_next_fut (k : Kernel) (i : Nat)
    (f : TaskRecord → TaskRecord) : (setTask k i f).next_fut = k.next_fut := rfl

@[simp] lemma setTask_trace (k : Kernel) (i : Nat)
    (f : TaskRecord → TaskRecord) : (setTask k i f).trace = k.trace := rfl

@[simp] lemma setTask_executors (k : Kernel) (i : Nat)
    (f : TaskRecord → TaskRecord) :
    (setTask k i f).executors = k.executors := rfl

@[simp] lemma setTask_lazy_fail (k : Kernel) (i : Nat)
    (f : TaskRecord → TaskRecord) :
    (setTask k i f).lazy_fail = k.lazy_fail := rfl

@[simp] lemma setTask_fail_retries (k : Kernel) (i : Nat)
    (f : TaskRecord → TaskRecord) :
    (setTask k i f).fail_retries = k.fail_retries := rfl

@[simp] lemma setTask_task_count (k : Kernel) (i : Nat)
    (f : TaskRecord → TaskRecord) :
    (setTask k i f).task_count = k.task_count := rfl

@[simp] lemma setTask_tasks (k : Kernel) (i : Nat)
    (f : TaskRecord → TaskRecord) :
    (setTask k i f).tasks = updAt i f k.tasks := rfl

lemma map_status_updAt (i j : Nat) (f : TaskRecord → TaskRecord)
    (hf : ∀ s, (f s).status = s.status) (l : List (Nat × TaskRecord)) :
    (List.lookup j (updAt i f l)).map TaskRecord.status
      = (List.lookup j l).map TaskRecord.status := by
  by_cases h : j = i
  · subst h
    rw [lookup_updAt_self]
    cases List.lookup j l with
    | none => rfl
    | some r => simp [hf r]
  · rw [lookup_updAt_ne _ _ _ h]

lemma launch_task_ok_spec (k : Kernel) (t pick : Nat) (k2 : Kernel)
    (fid : Nat) (h : launch_task k t pick = .ok (k2, fid)) :
    k2.tasks = k.tasks ∧ k2.task_count = k.task_count
      ∧ k2.executors = k.executors ∧ k2.lazy_fail = k.lazy_fail
      ∧ k2.fail_retries = k.fail_retries ∧ fid = k.next_fut
      ∧ k2.next_fut = k.next_fut + 1
      ∧ k2.futs = (k.next_fut, FutState.unset) :: k.futs
      ∧ ∃ site, k2.trace = k.trace ++ [Event.submitEv site t] := by
  cases hlt : List.lookup t k.tasks with
  | none =>
    simp only [launch_task, hlt] at h
    exact absurd h (by simp)
  | some r =>
    cases hs : r.sites with
    | str s =>
      simp only [launch_task, hlt, hs] at h
      by_cases hall : strLower s = "all"
      · rw [if_pos hall] at h
        by_cases hemp : k.executors.isEmpty = true
        · rw [if_pos hemp] at h
          exact absurd h (by simp)
        · rw [if_neg hemp] at h
          simp only [doSubmit, Except.ok.injEq, Prod.mk.injEq] at h
          obtain ⟨hk2, hfid⟩ := h
          subst hfid
          rw [show k2 = _ from hk2.symm]
          exact ⟨rfl, rfl, rfl, rfl, rfl, rfl, rfl, rfl, ⟨_, rfl⟩⟩
      · rw [if_neg hall] at h
        exact absurd h (by simp)
    | list l =>
      simp only [launch_task, hlt, hs] at h
      by_cases hemp : l.isEmpty = true
      · rw [if_pos hemp] at h
        exact absurd h (by simp)
      · rw [if_neg hemp] at h
        by_cases hcon :
            k.executors.contains (l.getD (pick % l.length) "") = true
        · rw [if_pos hcon] at h
          simp only [doSubmit, Except.ok.injEq, Prod.mk.injEq] at h
          obtain ⟨hk2, hfid⟩ := h
          subst hfid
          rw [show k2 = _ from hk2.symm]
          exact ⟨rfl, rfl, rfl, rfl, rfl, rfl, rfl, rfl, ⟨_, rfl⟩⟩
        · rw [if_neg hcon] at h
          exact absurd h (by simp)

lemma sweepOne_skip (task_id : Nat) (picks : Nat → Nat) (k : Kernel)
    (t : Nat) {r : TaskRecord} (hlt : List.lookup t k.tasks = some r)
    (hst : r.status ≠ States.pending) :
    sweepOne task_id picks k t = (k, none) := by
  unfold sweepOne
  rw [hlt]
  simp [hst]


lemma sweepOne_eq_no_task (task_id : Nat) (picks : Nat → Nat) (k : Kernel)
    (t : Nat) (hlt : List.lookup t k.tasks = none) :
    sweepOne task_id picks k t = (k, none) := by
  simp only [sweepOne, hlt]

lemma sweepOne_eq_notready (task_id : Nat) (picks : Nat → Nat) (k : Kernel)
    (t : Nat) {r : TaskRecord} (hlt : List.lookup t k.tasks = some r)
    (hst : r.status = States.pending)
    (hcd : _count_deps k.futs r.depends ≠ 0) :
    sweepOne task_id picks k t = (k, none) := by
  simp only [sweepOne, hlt]
  rw [if_pos hst, if_neg hcd]

lemma sweepOne_eq_blocked (task_id : Nat) (picks : Nat → Nat) (k : Kernel)
    (t : Nat) {r : TaskRecord} (hlt : List.lookup t k.tasks = some r)
    (hst : r.status = States.pending)
    (hcd : _count_deps k.futs r.depends = 0)
    (hsw : sanitize_and_wrap k.futs r.args r.kwargs = none) :
    sweepOne task_id picks k t = (k, some .blocked) := by
  simp only [sweepOne, hlt]
  rw [if_pos hst, if_pos hcd]
  simp only [hsw]

lemma sweepOne_eq_launch_err (task_id : Nat) (picks : Nat → Nat)
    (k : Kernel) (t : Nat) {r : TaskRecord}
    {res : List PyVal × List (String × PyVal) × List PyErr} {c : Crash}
    (hlt : List.lookup t k.tasks = some r)
    (hst : r.status = States.pending)
    (hcd : _count_deps k.futs r.depends = 0)
    (hsw : sanitize_and_wrap k.futs r.args r.kwargs = some res)
    (hemp : res.2.2.isEmpty = true)
    (hla : launch_task
        (setTask k t (fun s => { s with status := States.running })) t
        (picks t) = .error c) :
    sweepOne task_id picks k t
      = (setTask k t (fun s => { s with status := States.running }),
         some c) := by
  simp only [sweepOne, hlt]
  rw [if_pos hst, if_pos hcd]
  simp only [hsw]
  rw [if_pos hemp]
  simp only [hla]

lemma sweepOne_eq_launch_ok (task_id : Nat) (picks : Nat → Nat)
    (k : Kernel) (t : Nat) {r : TaskRecord}
    {res : List PyVal × List (String × PyVal) × List PyErr}
    {k2 : Kernel} {fid : Nat}
    (hlt : List.lookup t k.tasks = some r)
    (hst : r.status = States.pending)
    (hcd : _count_deps k.futs r.depends = 0)
    (hsw : sanitize_and_wrap k.futs r.args r.kwargs = some res)
    (hemp : res.2.2.isEmpty = true)
    (hla : launch_task
        (setTask k t (fun s => { s with status := States.running })) t
        (picks t) = .ok (k2, fid)) :
    sweepOne task_id picks k t
      = (setTask (setTask k2 task_id (fun s => { s with exec_fu := some fid }))
           t (fun s =>
              { s with app_fu := { s.app_fu with parent := some fid },
                       exec_fu := some fid }),
         none) := by
  simp only [sweepOne, hlt]
  rw [if_pos hst, if_pos hcd]
  simp only [hsw]
  rw [if_pos hemp]
  simp only [hla]

lemma sweepOne_eq_depfail (task_id : Nat) (picks : Nat → Nat) (k : Kernel)
    (t : Nat) {r : TaskRecord}
    {res : List PyVal × List (String × PyVal) × List PyErr}
    (hlt : List.lookup t k.tasks = some r)
    (hst : r.status = States.pending)
    (hcd : _count_deps k.futs r.depends = 0)
    (hsw : sanitize_and_wrap k.futs r.args r.kwargs = some res)
    (hemp : res.2.2.isEmpty = false) :
    sweepOne task_id picks k t
      = ({ task_count := k.task_count,
           tasks := updAt t
             (fun s =>
               { s with exec_fu := some k.next_fut,
                        app_fu := { s.app_fu with parent := some k.next_fut } })
             (updAt t (fun s => { s with status := States.dep_fail }) k.tasks),
           futs := (k.next_fut, FutState.err (.depErr res.2.2))
             :: (k.next_fut, FutState.unset) :: k.futs,
           next_fut := k.next_fut + 1,
           executors := k.executors,
           lazy_fail := k.lazy_fail,
           fail_retries := k.fail_retries,
           trace := k.trace }, none) := by
  simp only [sweepOne, hlt]
  rw [if_pos hst, if_pos hcd]
  simp only [hsw]
  rw [if_neg (by simp [hemp])]
  rfl


lemma sweepOne_frame (task_id : Nat) (picks : Nat → Nat) (k : Kernel)
    (t : Nat) (k1 : Kernel) (c : Option Crash)
    (hres : sweepOne task_id picks k t = (k1, c)) :
    (∀ j, j ≠ t → j ≠ task_id →
        List.lookup j k1.tasks = List.lookup j k.tasks)
    ∧ (∀ j, j ≠ t →
        (List.lookup j k1.tasks).map TaskRecord.status
          = (List.lookup j k.tasks).map TaskRecord.status)
    ∧ k.next_fut ≤ k1.next_fut
    ∧ (∀ i, i < k.next_fut → Store.get k1.futs i = Store.get k.futs i)
    ∧ (∃ evs, k1.trace = k.trace ++ evs ∧ ∀ ev ∈ evs, ev.taskId = t)
    ∧ k1.tasks.map Prod.fst = k.tasks.map Prod.fst
    ∧ k1.executors = k.executors
    ∧ k1.lazy_fail = k.lazy_fail
    ∧ k1.task_count = k.task_count := by
  cases hlt : List.lookup t k.tasks with
  | none =>
    rw [sweepOne_eq_no_task task_id picks k t hlt] at hres
    injection hres with h1 h2
    subst h1
    exact ⟨fun j a b => rfl, fun j a => rfl, Nat.le_refl _, fun i a => rfl,
           ⟨[], by simp, by simp⟩, rfl, rfl, rfl, rfl⟩
  | some r =>
    by_cases hst : r.status = States.pending
    · by_cases hcd : _count_deps k.futs r.depends = 0
      · cases hsw : sanitize_and_wrap k.futs r.args r.kwargs with
        | none =>
          rw [sweepOne_eq_blocked task_id picks k t hlt hst hcd hsw] at hres
          injection hres with h1 h2
          subst h1
          exact ⟨fun j a b => rfl, fun j a => rfl, Nat.le_refl _,
                 fun i a => rfl, ⟨[], by simp, by simp⟩, rfl, rfl, rfl, rfl⟩
        | some res =>
          cases hemp : res.2.2.isEmpty with
          | true =>
            cases hla : launch_task
                (setTask k t (fun s => { s with status := States.running }))
                t (picks t) with
            | error c2 =>
              rw [sweepOne_eq_launch_err task_id picks k t hlt hst hcd hsw
                  hemp hla] at hres
              injection hres with h1 h2
              subst h1
              refine ⟨?_, ?_, ?_, ?_, ?_, ?_, ?_, ?_, ?_⟩
              · intro j hjt hjid
                simp only [setTask_tasks]
                exact lookup_updAt_ne t j _ hjt k.tasks
              · intro j hjt
                simp only [setTask_tasks]
                rw [lookup_updAt_ne t j _ hjt k.tasks]
              · exact Nat.le_refl _
              · intro i hi
                rfl
              · exact ⟨[], by simp, by simp⟩
              · simp [keys_updAt]
              · rfl
              · rfl
              · rfl
            | ok kf =>
              obtain ⟨k2, fid⟩ := kf
              have hspec := launch_task_ok_spec _ _ _ _ _ hla
              obtain ⟨htk, htc, hex, hlz, hfr, hfid, hnf, hfuts,
                      site, htr⟩ := hspec
              simp only [setTask_tasks, setTask_task_count, setTask_executors,
                         setTask_lazy_fail, setTask_fail_retries,
                         setTask_next_fut, setTask_futs, setTask_trace]
                at htk htc hex hlz hfr hfid hnf hfuts htr
              rw [sweepOne_eq_launch_ok task_id picks k t hlt hst hcd hsw
                  hemp hla] at hres
              injection hres with h1 h2
              subst h1
              refine ⟨?_, ?_, ?_, ?_, ?_, ?_, ?_, ?_, ?_⟩
              · intro j hjt hjid
                simp only [setTask_tasks]
                rw [lookup_updAt_ne _ _ _ hjt, lookup_updAt_ne _ _ _ hjid,
                    htk, lookup_updAt_ne _ _ _ hjt]
              · intro j hjt
                simp only [setTask_tasks]
                rw [lookup_updAt_ne _ _ _ hjt,
                    map_status_updAt task_id j
                      (fun s => { s with exec_fu := some fid })
                      (fun s => rfl), htk,
                    lookup_updAt_ne _ _ _ hjt]
              · simp only [setTask_next_fut, hnf]
                exact Nat.le_succ _
              · intro i hi
                simp only [setTask_futs, hfuts]
                rw [store_get_cons, if_neg (Nat.ne_of_lt hi)]
              · refine ⟨[Event.submitEv site t], ?_, ?_⟩
                · simp only [setTask_trace, htr]
                · intro ev hev
                  simp at hev
                  subst hev
                  rfl
              · simp only [setTask_tasks]
                rw [keys_updAt, keys_updAt, htk, keys_updAt]
              · simp only [setTask_executors, hex]
              · simp only [setTask_lazy_fail, hlz]
              · simp only [setTask_task_count, htc]
          | false =>
            rw [sweepOne_eq_depfail task_id picks k t hlt hst hcd hsw
                hemp] at hres
            injection hres with h1 h2
            subst h1
            refine ⟨?_, ?_, ?_, ?_, ?_, ?_, ?_, ?_, ?_⟩
            · intro j hjt hjid
              simp only
              rw [lookup_updAt_ne _ _ _ hjt, lookup_updAt_ne _ _ _ hjt]
            · intro j hjt
              simp only
              rw [lookup_updAt_ne _ _ _ hjt, lookup_updAt_ne _ _ _ hjt]
            · exact Nat.le_succ _
            · intro i hi
              simp only
              rw [store_get_cons, if_neg (Nat.ne_of_lt hi),
                  store_get_cons, if_neg (Nat.ne_of_lt hi)]
            · exact ⟨[], by simp, by simp⟩
            · simp only
              rw [keys_updAt, keys_updAt]
            · rfl
            · rfl
            · rfl
      · rw [sweepOne_eq_notready task_id picks k t hlt hst hcd] at hres
        injection hres with h1 h2
        subst h1
        exact ⟨fun j a b => rfl, fun j a => rfl, Nat.le_refl _,
               fun i a => rfl, ⟨[], by simp, by simp⟩, rfl, rfl, rfl, rfl⟩
    · rw [sweepOne_skip task_id picks k t hlt hst] at hres
      injection hres with h1 h2
      subst h1
      exact ⟨fun j a b => rfl, fun j a => rfl, Nat.le_refl _,
             fun i a => rfl, ⟨[], by simp, by simp⟩, rfl, rfl, rfl, rfl⟩


lemma observe_parent {a : AppFu} {f : Nat} (σ : Store)
    (h1 : a.ownState = FutState.unset) (h2 : a.parent = some f) :
    a.observe σ = Store.get σ f := by
  simp [AppFu.observe, h1, h2]

lemma tracesFor_append (tid : Nat) (tr evs : List Event) :
    tracesFor tid (tr ++ evs) = tracesFor tid tr ++ tracesFor tid evs := by
  simp [tracesFor, List.filter_append]

lemma tracesFor_nil_of_ne {tid t : Nat} {evs : List Event}
    (h : ∀ ev ∈ evs, ev.taskId = t) (hne : t ≠ tid) :
    tracesFor tid evs = [] := by
  rw [tracesFor, List.filter_eq_nil_iff]
  intro ev hev
  rw [h ev hev]
  simp [hne]

lemma isEmpty_false_of_ne_nil {E : List PyErr} (h : E ≠ []) :
    E.isEmpty = false := by
  cases E with
  | nil => exact absurd rfl h
  | cons e rest => rfl

lemma lookup_none_of_bounded {l : List (Nat × TaskRecord)} {n : Nat}
    (h : ∀ p ∈ l, p.1 < n) : List.lookup n l = none := by
  induction l with
  | nil => rfl
  | cons p rest ih =>
    have hp := h p (List.mem_cons_self _ _)
    have hne : (n == p.1) = false := nat_beq_false (fun he => by
      rw [he] at hp
      exact Nat.lt_irrefl _ hp)
    simp only [List.lookup, hne]
    exact ih (fun q hq => h q (List.mem_cons_of_mem _ hq))

lemma sweep_status_stable (task_id : Nat) (picks : Nat → Nat) (j : Nat)
    (S : States) (hS : S ≠ States.pending) :
    ∀ (ts : List Nat) (k : Kernel) (r : TaskRecord) (k1 : Kernel)
      (c : Option Crash),
      List.lookup j k.tasks = some r → r.status = S →
      sweep task_id picks k ts = (k1, c) →
      ∃ r2, List.lookup j k1.tasks = some r2 ∧ r2.status = S := by
  intro ts
  induction ts with
  | nil =>
    intro k r k1 c hrec hst hres
    simp only [sweep] at hres
    injection hres with h1 h2
    subst h1
    exact ⟨r, hrec, hst⟩
  | cons t rest ih =>
    intro k r k1 c hrec hst hres
    simp only [sweep] at hres
    by_cases hjt : j = t
    · subst hjt
      rw [sweepOne_skip task_id picks k j hrec (hst ▸ hS)] at hres
      exact ih k r k1 c hrec hst hres
    · cases hone : sweepOne task_id picks k t with
    | mk ka ca =>
      have hframe := sweepOne_frame task_id picks k t ka ca hone
      have hstat := hframe.2.1 j hjt
      rw [hrec] at hstat
      cases hka : List.lookup j ka.tasks with
      | none => rw [hka] at hstat; exact absurd hstat (by simp)
      | some r2 =>
        rw [hka] at hstat
        simp at hstat
        have hr2 : r2.status = S := by rw [hstat, hst]
        rw [hone] at hres
        cases ca with
        | some c2 =>
          injection hres with h1 h2
          subst h1
          exact ⟨r2, hka, hr2⟩
        | none =>
          exact ih ka r2 k1 c hka hr2 hres


lemma sweep_post (task_id : Nat) (picks : Nat → Nat) (tid f : Nat)
    (E : List PyErr) (htidne : task_id ≠ tid) :
    ∀ (ts : List Nat) (k : Kernel) (r : TaskRecord) (k1 : Kernel)
      (c : Option Crash),
      List.lookup tid k.tasks = some r → r.status = States.dep_fail →
      r.app_fu.ownState = FutState.unset → r.app_fu.parent = some f →
      f < k.next_fut → Store.get k.futs f = FutState.err (.depErr E) →
      sweep task_id picks k ts = (k1, c) →
      (∃ r2, List.lookup tid k1.tasks = some r2
         ∧ r2.status = States.dep_fail
         ∧ r2.app_fu.observe k1.futs = FutState.err (.depErr E))
      ∧ tracesFor tid k1.trace = tracesFor tid k.trace := by
  intro ts
  induction ts with
  | nil =>
    intro k r k1 c hrec hst hown hpar hflt hgf hres
    simp only [sweep] at hres
    injection hres with h1 h2
    subst h1
    refine ⟨⟨r, hrec, hst, ?_⟩, rfl⟩
    rw [observe_parent _ hown hpar, hgf]
  | cons t rest ih =>
    intro k r k1 c hrec hst hown hpar hflt hgf hres
    simp only [sweep] at hres
    by_cases htt : t = tid
    · subst htt
      rw [sweepOne_skip task_id picks k t hrec
          (by rw [hst]; intro hh; cases hh)] at hres
      exact ih k r k1 c hrec hst hown hpar hflt hgf hres
    · cases hone : sweepOne task_id picks k t with
      | mk ka ca =>
        have hframe := sweepOne_frame task_id picks k t ka ca hone
        have hrecka : List.lookup tid ka.tasks = some r := by
          rw [hframe.1 tid (fun he => htt he.symm)
              (fun he => htidne he.symm), hrec]
        have hflt2 : f < ka.next_fut :=
          Nat.lt_of_lt_of_le hflt hframe.2.2.1
        have hgf2 : Store.get ka.futs f = FutState.err (.depErr E) := by
          rw [hframe.2.2.2.1 f hflt, hgf]
        have htrka : tracesFor tid ka.trace = tracesFor tid k.trace := by
          obtain ⟨evs, hevs, hta⟩ := hframe.2.2.2.2.1
          rw [hevs, tracesFor_append, tracesFor_nil_of_ne hta htt,
              List.append_nil]
        rw [hone] at hres
        cases ca with
        | some c2 =>
          injection hres with h1 h2
          subst h1
          refine ⟨⟨r, hrecka, hst, ?_⟩, htrka⟩
          rw [observe_parent _ hown hpar, hgf2]
        | none =>
          have hmain := ih ka r k1 c hrecka hst hown hpar hflt2 hgf2 hres
          exact ⟨hmain.1, hmain.2.trans htrka⟩

lemma sweep_reaches_depfail (task_id : Nat) (picks : Nat → Nat) (tid : Nat)
    (E : List PyErr) (htidne : task_id ≠ tid) (hEne : E ≠ []) :
    ∀ (ts : List Nat) (k : Kernel) (r : TaskRecord) (k1 : Kernel)
      (c : Option Crash),
      List.lookup tid k.tasks = some r →
      r.status = States.pending →
      r.app_fu.ownState = FutState.unset →
      r.depends = (_count_all_deps k.futs r.args r.kwargs).2 →
      (∀ i ∈ r.depends, (Store.get k.futs i).done = true) →
      (∀ i ∈ r.depends, i < k.next_fut) →
      errsAll k.futs r.args r.kwargs = E →
      tid ∈ ts →
      sweep task_id picks k ts = (k1, c) →
      ((∃ r2, List.lookup tid k1.tasks = some r2
          ∧ r2.status = States.dep_fail
          ∧ r2.app_fu.observe k1.futs = FutState.err (.depErr E))
        ∨ c ≠ none)
      ∧ tracesFor tid k1.trace = tracesFor tid k.trace := by
  intro ts
  induction ts with
  | nil =>
    intro k r k1 c hrec hst hown hdep hset hbound hE htmem hres
    exact absurd htmem (List.not_mem_nil _)
  | cons t rest ih =>
    intro k r k1 c hrec hst hown hdep hset hbound hE htmem hres
    simp only [sweep] at hres
    by_cases htt : t = tid
    · subst htt
      have hcd : _count_deps k.futs r.depends = 0 :=
        (count_deps_zero_iff _ _).mpr hset
      have hset2 : ∀ i ∈ (_count_all_deps k.futs r.args r.kwargs).2,
          (Store.get k.futs i).done = true := by
        rw [← hdep]
        exact hset
      have hswE : sanitize_and_wrap k.futs r.args r.kwargs
          = some (resolveVals k.futs r.args,
                  resolveKwFull k.futs r.kwargs, E) := by
        rw [sanitize_settled k.futs r.args r.kwargs hset2, hE]
      have hemp : (resolveVals k.futs r.args,
          resolveKwFull k.futs r.kwargs, E).2.2.isEmpty = false :=
        isEmpty_false_of_ne_nil hEne
      rw [sweepOne_eq_depfail task_id picks k t hrec hst hcd hswE
          hemp] at hres
      have hreckd : List.lookup t
          (updAt t
            (fun s =>
              { s with exec_fu := some k.next_fut,
                       app_fu := { s.app_fu with
                                   parent := some k.next_fut } })
            (updAt t (fun s => { s with status := States.dep_fail })
              k.tasks))
          = some { r with status := States.dep_fail,
                          exec_fu := some k.next_fut,
                          app_fu := { parent := some k.next_fut,
                                      ownState := r.app_fu.ownState } } := by
        rw [lookup_updAt_self, lookup_updAt_self, hrec]
        rfl
      have hpost := sweep_post task_id picks t k.next_fut E htidne rest _
        ({ r with status := States.dep_fail,
                  exec_fu := some k.next_fut,
                  app_fu := { parent := some k.next_fut,
                              ownState := r.app_fu.ownState } })
        k1 c hreckd rfl hown rfl (Nat.lt_succ_self _)
        (by rw [store_get_cons, if_pos rfl]) hres
      exact ⟨Or.inl hpost.1, hpost.2⟩
    · cases hone : sweepOne task_id picks k t with
      | mk ka ca =>
        have hframe := sweepOne_frame task_id picks k t ka ca hone
        have hrecka : List.lookup tid ka.tasks = some r := by
          rw [hframe.1 tid (fun he => htt he.symm)
              (fun he => htidne he.symm), hrec]
        have htrka : tracesFor tid ka.trace = tracesFor tid k.trace := by
          obtain ⟨evs, hevs, hta⟩ := hframe.2.2.2.2.1
          rw [hevs, tracesFor_append, tracesFor_nil_of_ne hta htt,
              List.append_nil]
        have hdepka : r.depends
            = (_count_all_deps ka.futs r.args r.kwargs).2 := by
          rw [count_all_deps_snd]
          rw [count_all_deps_snd] at hdep
          exact hdep
        have hgeq : ∀ i ∈ (_count_all_deps k.futs r.args r.kwargs).2,
            Store.get ka.futs i = Store.get k.futs i := by
          intro i hi
          rw [← hdep] at hi
          exact hframe.2.2.2.1 i (hbound i hi)
        have hsetka : ∀ i ∈ r.depends,
            (Store.get ka.futs i).done = true := by
          intro i hi
          rw [hgeq i (hdep ▸ hi)]
          exact hset i hi
        have hboundka : ∀ i ∈ r.depends, i < ka.next_fut :=
          fun i hi => Nat.lt_of_lt_of_le (hbound i hi) hframe.2.2.1
        have hEka : errsAll ka.futs r.args r.kwargs = E :=
          (errsAll_congr k.futs ka.futs r.args r.kwargs hgeq).trans hE
        have htmem2 : tid ∈ rest := by
          rcases List.mem_cons.mp htmem with he | hm
          · exact absurd he.symm htt
          · exact hm
        rw [hone] at hres
        cases ca with
        | some c2 =>
          injection hres with h1 h2
          subst h1
          refine ⟨Or.inr ?_, htrka⟩
          rw [← h2]
          simp
        | none =>
          have hmain := ih ka r k1 c hrecka hst hown hdepka hsetka
            hboundka hEka htmem2 hres
          exact ⟨hmain.1, hmain.2.trans htrka⟩


lemma submit_spec (k : Kernel) (func : Nat) (args : List PyVal)
    (kwargs : List (String × PyVal)) (sites : Sites) (pick : Nat)
    (k1 : Kernel) (tid : Nat) (afu : AppFu)
    (h : submit k func args kwargs sites pick = (k1, .ok (tid, afu))) :
    tid = k.task_count
    ∧ k1.task_count = k.task_count + 1
    ∧ k1.tasks.map Prod.fst = k.tasks.map Prod.fst ++ [k.task_count]
    ∧ ∃ r, List.lookup tid k1.tasks = some r
        ∧ r.app_fu = afu
        ∧ r.args = args ∧ r.kwargs = kwargs ∧ r.sites = sites
        ∧ r.dep_cnt = (_count_all_deps k.futs args kwargs).1
        ∧ r.depends = (_count_all_deps k.futs args kwargs).2
        ∧ (r.status = States.running ∨ r.status = States.pending
            ∨ r.status = States.dep_fail)
        ∧ (r.status = States.pending
            ↔ (_count_all_deps k.futs args kwargs).1 ≠ 0)
        ∧ (r.status = States.dep_fail →
            r.exec_fu = none
            ∧ errsAll k.futs args kwargs ≠ []
            ∧ afu = { parent := none,
                      ownState := FutState.err
                        (.depErr (errsAll k.futs args kwargs)) }
            ∧ k1.trace = k.trace ∧ k1.futs = k.futs)
        ∧ (r.status = States.running →
            errsAll k.futs args kwargs = []
            ∧ ∃ site, r.exec_fu = some k.next_fut
              ∧ afu = { parent := some k.next_fut,
                        ownState := FutState.unset }
              ∧ k1.trace = k.trace ++ [Event.submitEv site tid]
              ∧ k1.futs = (k.next_fut, FutState.unset) :: k.futs)
        ∧ (r.status = States.pending →
            afu = { parent := none, ownState := FutState.unset }
            ∧ r.exec_fu = none ∧ k1.trace = k.trace
            ∧ k1.futs = k.futs) := by
  simp only [submit] at h
  by_cases hdup : (List.lookup k.task_count k.tasks).isSome = true
  · rw [if_pos hdup] at h
    injection h with h1 h2
    exact absurd h2 (by simp)
  · rw [if_neg hdup] at h
    have hnone : List.lookup k.task_count k.tasks = none := by
      cases hv : List.lookup k.task_count k.tasks with
      | none => rfl
      | some v =>
        rw [hv] at hdup
        simp at hdup
    by_cases hcd : (_count_all_deps k.futs args kwargs).1 = 0
    · rw [if_pos hcd] at h
      have hset := (count_all_deps_fst_zero_iff k.futs args kwargs).mp hcd
      have hsw := sanitize_settled k.futs args kwargs hset
      rw [hsw] at h
      dsimp only at h
      by_cases hemp : (errsAll k.futs args kwargs).isEmpty = true
      · rw [if_pos hemp] at h
        cases hla : launch_task
            { k with task_count := k.task_count + 1,
                     tasks := k.tasks ++ [(k.task_count,
                       { depends := (_count_all_deps k.futs args kwargs).2,
                         sites := sites, func := func, args := args,
                         kwargs := kwargs,
                         dep_cnt := (_count_all_deps k.futs args kwargs).1,
                         exec_fu := none, status := States.unsched,
                         app_fu := { parent := none,
                                     ownState := FutState.unset } })] }
            k.task_count pick with
        | error c =>
          rw [hla] at h
          injection h with h1 h2
          exact absurd h2 (by simp)
        | ok kf =>
          obtain ⟨k2, fid⟩ := kf
          have hspec := launch_task_ok_spec _ _ _ _ _ hla
          obtain ⟨htk, htc, hex, hlz, hfr, hfid, hnf, hfuts,
                  site, htr⟩ := hspec
          rw [hla] at h
          injection h with h1 h2
          injection h2 with h2
          injection h2 with h2a h2b
          subst h2a
          subst h2b
          subst h1
          refine ⟨rfl, by simp [htc], ?_, ?_⟩
          · simp only [setTask_tasks]
            rw [keys_updAt, htk]
            simp [List.map_append]
          · refine ⟨{ depends := (_count_all_deps k.futs args kwargs).2,
                      sites := sites, func := func, args := args,
                      kwargs := kwargs,
                      dep_cnt := (_count_all_deps k.futs args kwargs).1,
                      exec_fu := some fid,
                      status := States.running,
                      app_fu := { parent := some fid,
                                  ownState := FutState.unset } },
                    ?_, rfl, rfl, rfl, rfl,
                    rfl, rfl, Or.inl rfl, ?_, ?_, ?_, ?_⟩
            · simp only [setTask_tasks]
              rw [lookup_updAt_self, htk]
              simp only [lookup_append_right _ _ _ hnone]
              simp [List.lookup]
            · constructor
              · intro hpend
                cases hpend
              · intro hne
                exact absurd hcd hne
            · intro hdf
              cases hdf
            · intro hrun
              refine ⟨?_, site, ?_, ?_, ?_, ?_⟩
              · cases hEE : errsAll k.futs args kwargs with
                | nil => rfl
                | cons e es =>
                  rw [hEE] at hemp
                  simp at hemp
              · rw [hfid]
              · rw [hfid]
              · simp only [setTask_trace]
                simp only [htr]
              · simp only [setTask_futs]
                simp only [hfuts]
            · intro hpend
              cases hpend
      · rw [if_neg hemp] at h
        injection h with h1 h2
        injection h2 with h2
        injection h2 with h2a h2b
        subst h2a
        subst h2b
        subst h1
        have hEne : errsAll k.futs args kwargs ≠ [] := by
          intro hnil
          rw [hnil] at hemp
          exact hemp rfl
        refine ⟨rfl, rfl, ?_, ?_⟩
        · simp only [setTask_tasks]
          rw [keys_updAt]
          simp [List.map_append]
        · refine ⟨{ depends := (_count_all_deps k.futs args kwargs).2,
                    sites := sites, func := func, args := args,
                    kwargs := kwargs,
                    dep_cnt := (_count_all_deps k.futs args kwargs).1,
                    exec_fu := none,
                    status := States.dep_fail,
                    app_fu := { parent := none,
                                ownState := FutState.err
                                  (.depErr (errsAll k.futs args kwargs)) } },
                  ?_, rfl, rfl, rfl, rfl,
                  rfl, rfl, Or.inr (Or.inr rfl), ?_, ?_, ?_, ?_⟩
          · simp only [setTask_tasks]
            rw [lookup_updAt_self]
            simp only [lookup_append_right _ _ _ hnone]
            simp [List.lookup]
          · constructor
            · intro hpend
              cases hpend
            · intro hne
              exact absurd hcd hne
          · intro hdf
            exact ⟨rfl, hEne, rfl, rfl, rfl⟩
          · intro hrun
            cases hrun
          · intro hpend
            cases hpend
    · rw [if_neg hcd] at h
      injection h with h1 h2
      injection h2 with h2
      injection h2 with h2a h2b
      subst h2a
      subst h2b
      subst h1
      refine ⟨rfl, rfl, ?_, ?_⟩
      · simp only [setTask_tasks]
        rw [keys_updAt]
        simp [List.map_append]
      · refine ⟨{ depends := (_count_all_deps k.futs args kwargs).2,
                  sites := sites, func := func, args := args,
                  kwargs := kwargs,
                  dep_cnt := (_count_all_deps k.futs args kwargs).1,
                  exec_fu := none,
                  status := States.pending,
                  app_fu := { parent := none,
                              ownState := FutState.unset } },
                ?_, rfl, rfl, rfl, rfl,
                rfl, rfl, Or.inr (Or.inl rfl), ?_, ?_, ?_, ?_⟩
        · simp only [setTask_tasks]
          rw [lookup_updAt_self]
          simp only [lookup_append_right _ _ _ hnone]
          simp [List.lookup]
        · constructor
          · intro hpend
            exact hcd
          · intro hne
            rfl
        · intro hdf
          cases hdf
        · intro hrun
          cases hrun
        · intro hpend
          exact ⟨rfl, rfl, rfl, rfl⟩


lemma observe_own {a : AppFu} {e : PyErr} (σ : Store)
    (h : a.ownState = FutState.err e) :
    a.observe σ = FutState.err e := by
  simp [AppFu.observe, h]

lemma mem_errsAll {σ : Store} {args : List PyVal}
    {kwargs : List (String × PyVal)} {i : Nat} {e : PyErr}
    (hmem : i ∈ (_count_all_deps σ args kwargs).2)
    (he : Store.get σ i = .err e) :
    e ∈ errsAll σ args kwargs := by
  rw [count_all_deps_snd] at hmem
  simp only [topHandles, List.mem_append] at hmem
  simp only [errsAll, List.mem_append]
  rcases hmem with (hv | hk) | hb
  · exact Or.inl (Or.inl (mem_errsOfV (mem_filterMap_valFut.mp hv) he))
  · exact Or.inl (Or.inr (mem_errsOfV (mem_filterMap_valFut.mp hk) he))
  · exact Or.inr (mem_errsOfB (mem_filterMap_baseFut.mp hb) he)

lemma handle_update_eq_eager_fail (k : Kernel) (task_id fu : Nat)
    (picks : Nat → Nat) (e : PyErr) (hlz : k.lazy_fail = false)
    (he : Store.get k.futs fu = FutState.err e) :
    handle_update k task_id fu picks
      = (setTask k task_id (fun r => { r with status := States.failed }),
         some (.appExn e)) := by
  simp only [handle_update, he, FutState.done, hlz]
  rw [if_pos trivial]

lemma handle_update_eq_mark_sweep (k : Kernel) (task_id fu : Nat)
    (picks : Nat → Nat)
    (hdone : (Store.get k.futs fu).done = true)
    (hcase : k.lazy_fail = true
      ∨ ∃ v, Store.get k.futs fu = FutState.val v) :
    handle_update k task_id fu picks
      = sweep task_id picks
          (setTask k task_id (fun r => { r with status := States.done }))
          ((setTask k task_id
            (fun r => { r with status := States.done })).tasks.map
              Prod.fst) := by
  rcases hcase with hlz | ⟨v, hv⟩
  · cases hg : Store.get k.futs fu with
    | unset =>
      rw [hg] at hdone
      simp [FutState.done] at hdone
    | val x =>
      simp only [handle_update, hg, FutState.done, hlz]
      rw [if_pos trivial]
    | err e =>
      simp only [handle_update, hg, FutState.done, hlz]
      rw [if_pos trivial]
  · cases hlzb : k.lazy_fail with
    | true =>
      simp only [handle_update, hv, FutState.done, hlzb]
      rw [if_pos trivial]
    | false =>
      simp only [handle_update, hv, FutState.done, hlzb]
      rw [if_pos trivial]

lemma handle_update_eq_sweep_unset (k : Kernel) (task_id fu : Nat)
    (picks : Nat → Nat)
    (hdone : (Store.get k.futs fu).done = false) :
    handle_update k task_id fu picks
      = sweep task_id picks k (k.tasks.map Prod.fst) := by
  simp only [handle_update, hdone]
  rw [if_neg (by simp)]


lemma settled_parts {σ : Store} {args : List PyVal}
    {kwargs : List (String × PyVal)}
    (h : ∀ i ∈ (_count_all_deps σ args kwargs).2,
        (Store.get σ i).done = true) :
    (∀ i, PyVal.base (.fut i) ∈ args → (Store.get σ i).done = true)
    ∧ (∀ i, PyVal.base (.fut i) ∈ kwargs.map Prod.snd
        → (Store.get σ i).done = true)
    ∧ (∀ i, PyBase.fut i ∈ getInputs kwargs
        → (Store.get σ i).done = true) := by
  rw [count_all_deps_snd] at h
  refine ⟨?_, ?_, ?_⟩
  · intro i hi
    exact h i (by
      simp only [topHandles, List.mem_append]
      exact Or.inl (Or.inl (mem_filterMap_valFut.mpr hi)))
  · intro i hi
    exact h i (by
      simp only [topHandles, List.mem_append]
      exact Or.inl (Or.inr (mem_filterMap_valFut.mpr hi)))
  · intro i hi
    exact h i (by
      simp only [topHandles, List.mem_append]
      exact Or.inr (mem_filterMap_baseFut.mpr hi))

lemma launch_task_no_dup (k : Kernel) (t pick : Nat) (c : Crash)
    (h : launch_task k t pick = .error c) :
    c ≠ Crash.duplicateTaskError := by
  cases hlt : List.lookup t k.tasks with
  | none =>
    simp only [launch_task, hlt] at h
    injection h with h2
    subst h2
    intro hh
    cases hh
  | some r =>
    cases hs : r.sites with
    | str s =>
      simp only [launch_task, hlt, hs] at h
      by_cases hall : strLower s = "all"
      · rw [if_pos hall] at h
        by_cases hemp : k.executors.isEmpty = true
        · rw [if_pos hemp] at h
          injection h with h2
          subst h2
          intro hh
          cases hh
        · rw [if_neg hemp] at h
          exact absurd h (by simp)
      · rw [if_neg hall] at h
        injection h with h2
        subst h2
        intro hh
        cases hh
    | list l =>
      simp only [launch_task, hlt, hs] at h
      by_cases hemp : l.isEmpty = true
      · rw [if_pos hemp] at h
        injection h with h2
        subst h2
        intro hh
        cases hh
      · rw [if_neg hemp] at h
        by_cases hcon :
            k.executors.contains (l.getD (pick % l.length) "") = true
        · rw [if_pos hcon] at h
          exact absurd h (by simp)
        · rw [if_neg hcon] at h
          injection h with h2
          subst h2
          intro hh
          cases hh

lemma submit_err_spec (k : Kernel) (func : Nat) (args : List PyVal)
    (kwargs : List (String × PyVal)) (sites : Sites) (pick : Nat)
    (k1 : Kernel) (c : Crash)
    (hnone : List.lookup k.task_count k.tasks = none)
    (h : submit k func args kwargs sites pick = (k1, .error c)) :
    c ≠ Crash.duplicateTaskError
    ∧ k1.task_count = k.task_count + 1
    ∧ k1.tasks.map Prod.fst = k.tasks.map Prod.fst ++ [k.task_count] := by
  simp only [submit] at h
  rw [if_neg (by rw [hnone]; simp)] at h
  by_cases hcd : (_count_all_deps k.futs args kwargs).1 = 0
  · rw [if_pos hcd] at h
    cases hsw : sanitize_and_wrap k.futs args kwargs with
    | none =>
      rw [hsw] at h
      injection h with h1 h2
      injection h2 with h2
      subst h2
      subst h1
      refine ⟨(by intro hh; cases hh), rfl, ?_⟩
      simp [List.map_append]
    | some res =>
      rw [hsw] at h
      dsimp only at h
      by_cases hemp : res.2.2.isEmpty = true
      · rw [if_pos hemp] at h
        cases hla : launch_task
            { k with task_count := k.task_count + 1,
                     tasks := k.tasks ++ [(k.task_count,
                       { depends := (_count_all_deps k.futs args kwargs).2,
                         sites := sites, func := func, args := args,
                         kwargs := kwargs,
                         dep_cnt := (_count_all_deps k.futs args kwargs).1,
                         exec_fu := none, status := States.unsched,
                         app_fu := { parent := none,
                                     ownState := FutState.unset } })] }
            k.task_count pick with
        | error c2 =>
          rw [hla] at h
          injection h with h1 h2
          injection h2 with h2
          subst h2
          subst h1
          refine ⟨launch_task_no_dup _ _ _ _ hla, rfl, ?_⟩
          simp [List.map_append]
        | ok kf =>
          rw [hla] at h
          injection h with h1 h2
          exact absurd h2 (by simp)
      · rw [if_neg hemp] at h
        injection h with h1 h2
        exact absurd h2 (by simp)
  · rw [if_neg hcd] at h
    injection h with h1 h2
    exact absurd h2 (by simp)


lemma getD_mem : ∀ (l : List String) (i : Nat), i < l.length →
    ∀ d, l.getD i d ∈ l := by
  intro l
  induction l with
  | nil =>
    intro i h d
    simp at h
  | cons a rest ih =>
    intro i h d
    cases i with
    | zero => exact List.mem_cons_self _ _
    | succ j =>
      have hstep : (a :: rest).getD (j + 1) d = rest.getD j d := rfl
      rw [hstep]
      exact List.mem_cons_of_mem _ (ih j (Nat.lt_of_succ_lt_succ h) d)

/-- Claim C4: the spec says a task submitted with an explicit site list
whose intersection with the registry is empty fails permanently with a
RoutingError surfaced through its app handle.  The code has no such path:
in launch_task the selection failure is caught by an except handler whose
logging call applies a two-placeholder format string to a single argument,
so an uncaught TypeError escapes submit, no app handle is returned, and
the executor is never invoked.  Evaluated here at a registry holding only
the site cpu, with the site lists [gpu] and []. -/
theorem c4_routing_error_missing :
    (submit (dfkDefault ["cpu"]) 0 [] [] (.list ["gpu"]) 0).2
        = .error Crash.typeError
    ∧ (submit (dfkDefault ["cpu"]) 0 [] [] (.list []) 0).2
        = .error Crash.typeError
    ∧ (submit (dfkDefault ["cpu"]) 0 [] [] (.list ["gpu"]) 0).1.trace = []
    ∧ (submit (dfkDefault ["cpu"]) 0 [] [] (.list []) 0).1.trace = [] :=
  ⟨rfl, rfl, rfl, rfl⟩

/-- Claim C5 counterexample: the sentinel for default site selection is
not the string any.  Submitting with sites equal to any reaches the branch
of launch_task for a sites value that is neither the recognized sentinel
nor a list: the executor variable stays None and an uncaught
AttributeError escapes submit; no executor submit call is made. -/
theorem c5_sentinel_any_counterexample :
    (submit (dfkDefault ["cpu"]) 0 [] [] (.str "any") 0).2
        = .error Crash.attributeError
    ∧ (submit (dfkDefault ["cpu"]) 0 [] [] (.str "any") 0).1.trace = [] :=
  ⟨rfl, rfl⟩

/-- Claim C5 as amended: the sentinel recognized by launch_task is the
string all, compared case-insensitively (the default parsl_sites value of
submit and the default sites of PythonApp).  With that sentinel and a
non-empty registry, launching picks one executor from the registry —
random.choice is modelled by the oracle index pick modulo the registry
size, so every executor is a possible choice and indices below the size
are picked verbatim — and calls submit on that executor exactly once
(exactly one submission event is appended). -/
theorem c5_sentinel_all_uniform_choice (k : Kernel) (task_id pick : Nat)
    (r : TaskRecord) (s : String)
    (hrec : List.lookup task_id k.tasks = some r)
    (hsites : r.sites = Sites.str s)
    (hall : strLower s = "all")
    (hne : k.executors ≠ []) :
    ∃ k2, launch_task k task_id pick = .ok (k2, k.next_fut)
      ∧ k2.trace = k.trace
          ++ [Event.submitEv
                (k.executors.getD (pick % k.executors.length) "") task_id]
      ∧ k.executors.getD (pick % k.executors.length) "" ∈ k.executors
      ∧ (∀ j, j < k.executors.length → j % k.executors.length = j) := by
  have hlen : 0 < k.executors.length := List.length_pos.mpr hne
  have hemp : k.executors.isEmpty = false := by
    cases hE : k.executors with
    | nil => exact absurd hE hne
    | cons a rest => rfl
  have hle : launch_task k task_id pick
      = .ok (doSubmit k task_id
          (k.executors.getD (pick % k.executors.length) "")) := by
    simp only [launch_task, hrec, hsites]
    rw [if_pos hall, if_neg (by rw [hemp]; simp)]
  refine ⟨(doSubmit k task_id
      (k.executors.getD (pick % k.executors.length) "")).1, ?_, rfl,
      ?_, ?_⟩
  · rw [hle]
    rfl
  · exact getD_mem _ _ (Nat.mod_lt _ hlen) _
  · intro j hj
    exact Nat.mod_eq_of_lt hj

/-- Claim C5 witness: the amended statement evaluated on the concrete
one-site kernel. -/
theorem c5_sentinel_all_uniform_choice_witness :
    ∃ k2, launch_task demoS1 0 0 = .ok (k2, demoS1.next_fut)
      ∧ k2.trace = demoS1.trace
          ++ [Event.submitEv
                (demoS1.executors.getD (0 % demoS1.executors.length) "") 0]
      ∧ demoS1.executors.getD (0 % demoS1.executors.length) ""
          ∈ demoS1.executors
      ∧ (∀ j, j < demoS1.executors.length
          → j % demoS1.executors.length = j) :=
  c5_sentinel_all_uniform_choice demoS1 0 0
    { depends := [], sites := .str "all", func := 0, args := [],
      kwargs := [], dep_cnt := 0, exec_fu := some 0,
      status := States.running,
      app_fu := { parent := some 0, ownState := FutState.unset } }
    "all" rfl rfl rfl (by decide)

/-- Claim C7: the spec says that when the sweep launches a promoted task,
the executor handle is stored on the record of that task and all other
records — in particular that of the completing task — change only in the
status field of the completing task.  The code stores the promoted
executor handle on the record of the completing task as well (the assignment
keyed by task_id at dflow.py line 168): after task 0 completes with a
value and the sweep launches task 1 (new executor future id 1), the
exec_fu field of task 0 has been overwritten from some 0 to some 1. -/
theorem c7_sweep_clobbers_completing_record :
    (List.lookup 0 demoS2.tasks).map (fun r => r.exec_fu) = some (some 0)
    ∧ (List.lookup 0 demoDone.1.tasks).map (fun r => r.exec_fu)
        = some (some 1)
    ∧ (List.lookup 0 demoDone.1.tasks).map (fun r => r.status)
        = some States.done
    ∧ (List.lookup 1 demoDone.1.tasks).map (fun r => r.exec_fu)
        = some (some 1)
    ∧ (List.lookup 1 demoDone.1.tasks).map (fun r => r.status)
        = some States.running :=
  ⟨rfl, rfl, rfl, rfl, rfl⟩

/-- Claim C8: the spec (and the constructor docstring) present
fail_retries (default 2) as the number of retry attempts on failure, but
the completion path never consumes it: after the executor future of a
launched task settles with an error, the callback marks the task done (lazy
mode), performs no re-launch (the trace still holds exactly the original
submission), and fail_retries is untouched; no retry counter exists on the
task record at all. -/
theorem c8_retries_not_consumed :
    (dfkDefault ["cpu"]).fail_retries = 2
    ∧ (List.lookup 0 demoErr.1.tasks).map (fun r => r.status)
        = some States.done
    ∧ demoErr.1.trace = [Event.submitEv "cpu" 0]
    ∧ demoErr.1.fail_retries = 2
    ∧ demoErr.2 = none :=
  ⟨rfl, rfl, rfl, rfl, rfl⟩

/-- Claim C2 counterexample: in lazy-fail mode (the default) the
completion callback marks an error-completed task done, not failed: the
executor future of task 0 settles with an error, yet its status after
handle_update is done. -/
theorem c2_lazy_error_marks_done_counterexample :
    demoS1.lazy_fail = true
    ∧ Store.get (settleFut demoS1 0 (.err (.userErr 7))).futs 0
        = FutState.err (.userErr 7)
    ∧ (List.lookup 0 demoErr.1.tasks).map (fun r => r.status)
        = some States.done
    ∧ (List.lookup 0 demoErr.1.tasks).map (fun r => r.status)
        ≠ some States.failed :=
  ⟨rfl, rfl, rfl, by decide⟩

/-- Claim C2 as amended: when the executor future of a task completes, the
callback marks the task done if the future settled with a value (in both
modes); if it settled with an error, the task is marked failed only in
eager-fail mode, where the error is also re-raised out of the callback —
in lazy-fail mode an error-completed task is marked done as well. -/
theorem c2_completion_status_amended (k : Kernel) (task_id fu : Nat)
    (picks : Nat → Nat) (r : TaskRecord)
    (hrec : List.lookup task_id k.tasks = some r) :
    (k.lazy_fail = false →
      ∀ e, Store.get k.futs fu = FutState.err e →
        (handle_update k task_id fu picks).2 = some (Crash.appExn e)
        ∧ (List.lookup task_id
            (handle_update k task_id fu picks).1.tasks).map
              TaskRecord.status = some States.failed)
    ∧ ((k.lazy_fail = true ∨ (∃ v, Store.get k.futs fu = FutState.val v)) →
      (Store.get k.futs fu).done = true →
      ∃ r2, List.lookup task_id
          (handle_update k task_id fu picks).1.tasks = some r2
        ∧ r2.status = States.done) := by
  constructor
  · intro hlz e he
    rw [handle_update_eq_eager_fail k task_id fu picks e hlz he]
    refine ⟨rfl, ?_⟩
    simp only [setTask_tasks]
    rw [lookup_updAt_self, hrec]
    rfl
  · intro hcase hdone
    rw [handle_update_eq_mark_sweep k task_id fu picks hdone hcase]
    have hrec2 : List.lookup task_id
        (setTask k task_id
          (fun r => { r with status := States.done })).tasks
        = some { r with status := States.done } := by
      simp only [setTask_tasks]
      rw [lookup_updAt_self, hrec]
      rfl
    cases hs : sweep task_id picks
        (setTask k task_id (fun r => { r with status := States.done }))
        ((setTask k task_id
          (fun r => { r with status := States.done })).tasks.map
            Prod.fst) with
    | mk k1 c =>
      have := sweep_status_stable task_id picks task_id States.done
        (by intro hh; cases hh) _ _ _ k1 c hrec2 rfl hs
      exact this

/-- Claim C2 witness: both halves of the amended statement evaluated
concretely — the eager-fail kernel whose future errored, and the default
lazy kernel. -/
theorem c2_completion_status_amended_witness :
    ((handle_update demoEager 0 0 (fun _ => 0)).2
        = some (Crash.appExn (.userErr 9))
      ∧ (List.lookup 0
          (handle_update demoEager 0 0 (fun _ => 0)).1.tasks).map
            TaskRecord.status = some States.failed)
    ∧ ∃ r2, List.lookup 0
          (handle_update (settleFut demoS1 0 (.err (.userErr 7))) 0 0
            (fun _ => 0)).1.tasks = some r2
        ∧ r2.status = States.done := by
  constructor
  · exact (c2_completion_status_amended demoEager 0 0 (fun _ => 0)
      demoEagerRec rfl).1 rfl (.userErr 9) rfl
  · exact (c2_completion_status_amended
      (settleFut demoS1 0 (.err (.userErr 7))) 0 0 (fun _ => 0)
      { depends := [], sites := .str "all", func := 0, args := [],
        kwargs := [], dep_cnt := 0, exec_fu := some 0,
        status := States.running,
        app_fu := { parent := some 0, ownState := FutState.unset } }
      rfl).2 (Or.inl rfl) rfl


/-- Claim C9: task ids are unique and submit-ordered.  On any kernel whose
task table only holds ids below the id counter (true initially and
preserved by every submit), submit assigns the current counter value as
the new task id — strictly greater than every previously assigned id —
increments the counter, never takes the defensive DuplicateTaskError
branch, and re-establishes the invariant. -/
theorem c9_monotonic_ids_no_duplicate (k : Kernel) (func : Nat)
    (args : List PyVal) (kwargs : List (String × PyVal)) (sites : Sites)
    (pick : Nat) (hb : idsBounded k) :
    (submit k func args kwargs sites pick).2
        ≠ .error Crash.duplicateTaskError
    ∧ (submit k func args kwargs sites pick).1.task_count
        = k.task_count + 1
    ∧ idsBounded (submit k func args kwargs sites pick).1
    ∧ (∀ k1 tid afu,
        submit k func args kwargs sites pick = (k1, .ok (tid, afu)) →
        tid = k.task_count ∧ ∀ p ∈ k.tasks, p.1 < tid) := by
  have hnone : List.lookup k.task_count k.tasks = none :=
    lookup_none_of_bounded hb
  cases hcall : submit k func args kwargs sites pick with
  | mk k1 res =>
    have hkeys : k1.task_count = k.task_count + 1
        ∧ k1.tasks.map Prod.fst
            = k.tasks.map Prod.fst ++ [k.task_count] := by
      cases res with
      | ok v =>
        obtain ⟨tid, afu⟩ := v
        have hspec := submit_spec k func args kwargs sites pick k1 tid
          afu hcall
        exact ⟨hspec.2.1, hspec.2.2.1⟩
      | error c =>
        have hspec := submit_err_spec k func args kwargs sites pick k1 c
          hnone hcall
        exact ⟨hspec.2.1, hspec.2.2⟩
    have hbound2 : idsBounded k1 := by
      intro p hp
      have hpk : p.1 ∈ k1.tasks.map Prod.fst :=
        List.mem_map_of_mem Prod.fst hp
      rw [hkeys.2] at hpk
      rw [hkeys.1]
      rcases List.mem_append.mp hpk with hold | hnew
      · obtain ⟨q, hq, hqe⟩ := List.mem_map.mp hold
        rw [← hqe]
        exact Nat.lt_succ_of_lt (hb q hq)
      · simp at hnew
        rw [hnew]
        exact Nat.lt_succ_self _
    refine ⟨?_, hkeys.1, hbound2, ?_⟩
    · intro habs
      cases res with
      | ok v => exact absurd habs (by simp)
      | error c =>
        have hspec := submit_err_spec k func args kwargs sites pick k1 c
          hnone hcall
        injection habs with habs2
        exact hspec.1 habs2
    · intro k2 tid afu heq
      injection heq with he1 he2
      subst he1
      subst he2
      have hspec := submit_spec k func args kwargs sites pick k1 tid
        afu hcall
      refine ⟨hspec.1, ?_⟩
      intro p hp
      rw [hspec.1]
      exact hb p hp

/-- Claim C9 witness: the statement evaluated on the empty default
kernel. -/
theorem c9_monotonic_ids_no_duplicate_witness :
    (submit (dfkDefault ["cpu"]) 0 [] [] (.str "all") 0).2
        ≠ .error Crash.duplicateTaskError
    ∧ (submit (dfkDefault ["cpu"]) 0 [] [] (.str "all") 0).1.task_count
        = (dfkDefault ["cpu"]).task_count + 1
    ∧ idsBounded (submit (dfkDefault ["cpu"]) 0 [] [] (.str "all") 0).1
    ∧ (∀ k1 tid afu,
        submit (dfkDefault ["cpu"]) 0 [] [] (.str "all") 0
          = (k1, .ok (tid, afu)) →
        tid = (dfkDefault ["cpu"]).task_count
        ∧ ∀ p ∈ (dfkDefault ["cpu"]).tasks, p.1 < tid) :=
  c9_monotonic_ids_no_duplicate (dfkDefault ["cpu"]) 0 [] [] (.str "all")
    0 (by intro p hp; cases hp)

/-- Claim C10: submit postcondition.  Whenever submit returns normally,
the record of the new task is in the table with status running, pending or
dep_fail (never unscheduled, runnable, done or failed); the returned
handle is exactly the app handle stored on the record; the status is pending iff the
analyzer counted at least one unsettled dependency; and in the dep_fail
case the exec handle on the record is null while the returned handle already
observes a DependencyError carrying the collected upstream errors. -/
theorem c10_submit_postcondition (k : Kernel) (func : Nat)
    (args : List PyVal) (kwargs : List (String × PyVal)) (sites : Sites)
    (pick : Nat) (k1 : Kernel) (tid : Nat) (afu : AppFu)
    (h : submit k func args kwargs sites pick = (k1, .ok (tid, afu))) :
    ∃ r, List.lookup tid k1.tasks = some r
      ∧ (r.status = States.running ∨ r.status = States.pending
          ∨ r.status = States.dep_fail)
      ∧ r.app_fu = afu
      ∧ (r.status = States.pending
          ↔ (_count_all_deps k.futs args kwargs).1 ≠ 0)
      ∧ (r.status = States.dep_fail →
          r.exec_fu = none
          ∧ afu.observe k1.futs
              = FutState.err (.depErr (errsAll k.futs args kwargs))) := by
  obtain ⟨htid, htc, hkeys, r, hrec, hafu, hargs2, hkw2, hsites2, hdc,
          hdeps, htri, hpend, hdf, hrun, hpd⟩ :=
    submit_spec k func args kwargs sites pick k1 tid afu h
  refine ⟨r, hrec, htri, hafu, hpend, ?_⟩
  intro hstdf
  obtain ⟨hexec, hEne, hafuE, htr, hfuts⟩ := hdf hstdf
  refine ⟨hexec, ?_⟩
  rw [observe_own _ (by rw [hafuE])]

/-- Claim C10 witness: the postcondition evaluated on the first concrete
submission. -/
theorem c10_submit_postcondition_witness :
    ∃ r, List.lookup 0 demoS1.tasks = some r
      ∧ (r.status = States.running ∨ r.status = States.pending
          ∨ r.status = States.dep_fail)
      ∧ r.app_fu = { parent := some 0, ownState := FutState.unset }
      ∧ (r.status = States.pending
          ↔ (_count_all_deps (dfkDefault ["cpu"]).futs [] []).1 ≠ 0)
      ∧ (r.status = States.dep_fail →
          r.exec_fu = none
          ∧ AppFu.observe { parent := some 0, ownState := FutState.unset }
              demoS1.futs
            = FutState.err
                (.depErr (errsAll (dfkDefault ["cpu"]).futs [] []))) :=
  c10_submit_postcondition (dfkDefault ["cpu"]) 0 [] [] (.str "all") 0
    demoS1 0 { parent := some 0, ownState := FutState.unset } rfl

/-- Claim C6: the dependency analyzer inspects exactly the top level of
the positional args, the keyword values and the inputs elements: the
returned depends list equals those top-level handles in inspection order
(futures inside containers are not discovered), the count is the number of
unsettled handles among them, and a submission all of whose handles are
already settled gets dep_count 0 and, when submit returns, is not pending
but launched or dep-failed immediately. -/
theorem c6_analyzer_shallow_scan :
    (∀ (σ : Store) (args : List PyVal) (kwargs : List (String × PyVal)),
      (_count_all_deps σ args kwargs).2 = topHandles args kwargs
      ∧ (_count_all_deps σ args kwargs).1
          = ((topHandles args kwargs).filter
              (fun i => !(Store.get σ i).done)).length
      ∧ (∀ i, i ∈ (_count_all_deps σ args kwargs).2
          ↔ (PyVal.base (.fut i) ∈ args
              ∨ (∃ key, (key, PyVal.base (.fut i)) ∈ kwargs)
              ∨ PyBase.fut i ∈ getInputs kwargs)))
    ∧ (∀ (k : Kernel) (func : Nat) (args : List PyVal)
        (kwargs : List (String × PyVal)) (sites : Sites) (pick : Nat)
        (k1 : Kernel) (tid : Nat) (afu : AppFu),
      submit k func args kwargs sites pick = (k1, .ok (tid, afu)) →
      (∀ i ∈ (_count_all_deps k.futs args kwargs).2,
          (Store.get k.futs i).done = true) →
      (_count_all_deps k.futs args kwargs).1 = 0
      ∧ ∃ r, List.lookup tid k1.tasks = some r
          ∧ r.status ≠ States.pending
          ∧ (r.status = States.running
              ∨ r.status = States.dep_fail)) := by
  constructor
  · intro σ args kwargs
    refine ⟨count_all_deps_snd σ args kwargs,
            count_all_deps_fst σ args kwargs, ?_⟩
    intro i
    rw [count_all_deps_snd]
    simp only [topHandles, List.mem_append]
    constructor
    · intro hmem
      rcases hmem with (hv | hk) | hb
      · exact Or.inl (mem_filterMap_valFut.mp hv)
      · refine Or.inr (Or.inl ?_)
        obtain ⟨p, hp, hpe⟩ :=
          List.mem_map.mp (mem_filterMap_valFut.mp hk)
        obtain ⟨a, b⟩ := p
        simp only at hpe
        subst hpe
        exact ⟨a, hp⟩
      · exact Or.inr (Or.inr (mem_filterMap_baseFut.mp hb))
    · intro hmem
      rcases hmem with hv | ⟨key, hk⟩ | hb
      · exact Or.inl (Or.inl (mem_filterMap_valFut.mpr hv))
      · refine Or.inl (Or.inr (mem_filterMap_valFut.mpr ?_))
        exact List.mem_map.mpr ⟨(key, PyVal.base (.fut i)), hk, rfl⟩
      · exact Or.inr (mem_filterMap_baseFut.mpr hb)
  · intro k func args kwargs sites pick k1 tid afu h hset
    have hcd : (_count_all_deps k.futs args kwargs).1 = 0 :=
      (count_all_deps_fst_zero_iff k.futs args kwargs).mpr hset
    obtain ⟨htid, htc, hkeys, r, hrec, hafu, hargs2, hkw2, hsites2, hdc,
            hdeps, htri, hpend, hdf, hrun, hpd⟩ :=
      submit_spec k func args kwargs sites pick k1 tid afu h
    refine ⟨hcd, r, hrec, ?_, ?_⟩
    · intro hp
      exact absurd hcd (hpend.mp hp)
    · rcases htri with h1 | h2 | h3
      · exact Or.inl h1
      · exact absurd hcd (hpend.mp h2)
      · exact Or.inr h3

/-- Claim C6 witness: the analyzer statement evaluated on a store with one
settled and one unsettled future, args holding a settled handle and a
handle hidden inside a container, kwargs holding an unsettled handle under
one key and an inputs list with a settled handle; and the submit clause
evaluated on the concrete all-settled submission. -/
theorem c6_analyzer_shallow_scan_witness :
    ((_count_all_deps [(0, FutState.val 4), (1, FutState.unset)]
        [.base (.fut 0), .listV [.fut 5]]
        [("a", .base (.fut 1)), ("inputs", .listV [.fut 0])]).2
      = topHandles [.base (.fut 0), .listV [.fut 5]]
          [("a", .base (.fut 1)), ("inputs", .listV [.fut 0])]
      ∧ (_count_all_deps [(0, FutState.val 4), (1, FutState.unset)]
          [.base (.fut 0), .listV [.fut 5]]
          [("a", .base (.fut 1)), ("inputs", .listV [.fut 0])]).1 = 1
      ∧ ¬(5 ∈ (_count_all_deps [(0, FutState.val 4), (1, FutState.unset)]
          [.base (.fut 0), .listV [.fut 5]]
          [("a", .base (.fut 1)), ("inputs", .listV [.fut 0])]).2))
    ∧ ((_count_all_deps demoE.futs [.base (.fut 0)] []).1 = 0
      ∧ ∃ r, List.lookup 1 demoE2.1.tasks = some r
          ∧ r.status ≠ States.pending
          ∧ (r.status = States.running
              ∨ r.status = States.dep_fail)) := by
  constructor
  · refine ⟨(c6_analyzer_shallow_scan.1 _ _ _).1, ?_, ?_⟩
    · rfl
    · intro habs
      have hiff := (c6_analyzer_shallow_scan.1
        [(0, FutState.val 4), (1, FutState.unset)]
        [.base (.fut 0), .listV [.fut 5]]
        [("a", .base (.fut 1)), ("inputs", .listV [.fut 0])]).2.2 5
      have := hiff.mp habs
      rcases this with hv | ⟨key, hk⟩ | hb
      · simp at hv
      · simp at hk
      · simp [getInputs, List.lookup] at hb
  · exact c6_analyzer_shallow_scan.2 demoE 1 [.base (.fut 0)] []
      (.str "all") 0 demoE2.1 1
      { parent := none, ownState := FutState.err (.depErr [.userErr 3]) }
      rfl (by decide)


/-- Claim C3: resolver correctness.  When every dependency of a submission
is settled, sanitize_and_wrap returns the triple (it never raises and, all
result calls being on settled futures, never blocks): the rebuilt kwargs
are the entry-wise substitution with the inputs list rebuilt; every error
of an error-settled handle is collected, in traversal order, into the
error list; with no dependency errors the rebuilt positional args are the
element-wise substitution of settled values; and substitution leaves every
non-handle value unchanged. -/
theorem c3_resolver_total_and_faithful (σ : Store) (args : List PyVal)
    (kwargs : List (String × PyVal))
    (h : ∀ i ∈ (_count_all_deps σ args kwargs).2,
        (Store.get σ i).done = true) :
    sanitize_and_wrap σ args kwargs
      = some (resolveVals σ args, resolveKwFull σ kwargs,
              errsAll σ args kwargs)
    ∧ (∀ i e, i ∈ (_count_all_deps σ args kwargs).2 →
        Store.get σ i = FutState.err e → e ∈ errsAll σ args kwargs)
    ∧ (errsAll σ args kwargs = [] →
        resolveVals σ args = args.map (resolveOne σ))
    ∧ (∀ v, (∀ i, v ≠ PyVal.base (.fut i)) → resolveOne σ v = v) := by
  obtain ⟨h1, h2, h3⟩ := settled_parts h
  refine ⟨sanitize_settled σ args kwargs h, ?_, ?_, ?_⟩
  · intro i e hi he
    exact mem_errsAll hi he
  · intro hnil
    have hargsnil : errsOfV σ args = [] := by
      simp only [errsAll] at hnil
      exact (List.append_eq_nil.mp
        ((List.append_eq_nil.mp hnil).1)).1
    exact resolveVals_of_no_errs σ args h1 hargsnil
  · intro v hv
    cases v with
    | base b =>
      cases b with
      | const x => rfl
      | fut i => exact absurd rfl (hv i)
    | listV l => rfl

/-- Claim C3 witness: the resolver statement evaluated on a store holding
one value and one error, args mixing a scalar, a value handle and an
error handle, and an inputs list holding a value handle. -/
theorem c3_resolver_total_and_faithful_witness :
    sanitize_and_wrap [(0, FutState.val 4), (1, FutState.err (.userErr 6))]
        [.base (.const 9), .base (.fut 0), .base (.fut 1)]
        [("inputs", .listV [.fut 0])]
      = some (resolveVals
                [(0, FutState.val 4), (1, FutState.err (.userErr 6))]
                [.base (.const 9), .base (.fut 0), .base (.fut 1)],
              resolveKwFull
                [(0, FutState.val 4), (1, FutState.err (.userErr 6))]
                [("inputs", .listV [.fut 0])],
              errsAll
                [(0, FutState.val 4), (1, FutState.err (.userErr 6))]
                [.base (.const 9), .base (.fut 0), .base (.fut 1)]
                [("inputs", .listV [.fut 0])])
    ∧ errsAll [(0, FutState.val 4), (1, FutState.err (.userErr 6))]
        [.base (.const 9), .base (.fut 0), .base (.fut 1)]
        [("inputs", .listV [.fut 0])] = [.userErr 6] := by
  constructor
  · exact (c3_resolver_total_and_faithful
      [(0, FutState.val 4), (1, FutState.err (.userErr 6))]
      [.base (.const 9), .base (.fut 0), .base (.fut 1)]
      [("inputs", .listV [.fut 0])] (by decide)).1
  · rfl

/-- Claim C1: dependency-failure closure.  If every dependency of a task
settled and at least one settled with an error, the task moves to
dep_fail, its app handle settles with a DependencyError carrying the
collected upstream errors, and submit on the executor is never called for
it.  The first half covers detection at submit time (the dep_count = 0
path); the trace is returned unchanged, so no submission event exists for
the task.  The second half covers the completion-driven sweep: for a
pending task with all dependencies settled and at least one error, the
sweep either reaches it and dep-fails it with the settled DependencyError,
or the whole callback was cut short by an exception escaping some other
launch of some other task; in both cases the submission events for the task are
exactly those before the callback — none are added, so its function is
never invoked. -/
theorem c1_dep_failure_closure :
    (∀ (k : Kernel) (func : Nat) (args : List PyVal)
        (kwargs : List (String × PyVal)) (sites : Sites) (pick : Nat)
        (k1 : Kernel) (tid : Nat) (afu : AppFu),
      submit k func args kwargs sites pick = (k1, .ok (tid, afu)) →
      (∀ i ∈ (_count_all_deps k.futs args kwargs).2,
        (Store.get k.futs i).done = true) →
      (∃ i ∈ (_count_all_deps k.futs args kwargs).2,
        ∃ e, Store.get k.futs i = FutState.err e) →
      (∃ r, List.lookup tid k1.tasks = some r
        ∧ r.status = States.dep_fail
        ∧ afu.observe k1.futs
            = FutState.err (.depErr (errsAll k.futs args kwargs)))
      ∧ k1.trace = k.trace)
    ∧ (∀ (k : Kernel) (task_id fu tid : Nat) (picks : Nat → Nat)
        (r : TaskRecord) (k1 : Kernel) (c : Option Crash),
      handle_update k task_id fu picks = (k1, c) →
      task_id ≠ tid →
      (k.lazy_fail = true ∨ ∀ e, Store.get k.futs fu ≠ FutState.err e) →
      List.lookup tid k.tasks = some r →
      r.status = States.pending →
      r.app_fu.ownState = FutState.unset →
      r.depends = (_count_all_deps k.futs r.args r.kwargs).2 →
      (∀ i ∈ r.depends, (Store.get k.futs i).done = true) →
      (∀ i ∈ r.depends, i < k.next_fut) →
      (∃ i ∈ r.depends, ∃ e, Store.get k.futs i = FutState.err e) →
      ((∃ r2, List.lookup tid k1.tasks = some r2
          ∧ r2.status = States.dep_fail
          ∧ r2.app_fu.observe k1.futs
              = FutState.err (.depErr (errsAll k.futs r.args r.kwargs)))
        ∨ c ≠ none)
      ∧ tracesFor tid k1.trace = tracesFor tid k.trace) := by
  constructor
  · intro k func args kwargs sites pick k1 tid afu h hset hex
    obtain ⟨htid, htc, hkeys, r, hrec, hafu, hargs2, hkw2, hsites2, hdc,
            hdeps, htri, hpend, hdf, hrun, hpd⟩ :=
      submit_spec k func args kwargs sites pick k1 tid afu h
    obtain ⟨i, hi, e, he⟩ := hex
    have hEne : errsAll k.futs args kwargs ≠ [] := errsAll_ne_nil hi he
    have hcd0 : (_count_all_deps k.futs args kwargs).1 = 0 :=
      (count_all_deps_fst_zero_iff k.futs args kwargs).mpr hset
    have hstdf : r.status = States.dep_fail := by
      rcases htri with h1 | h2 | h3
      · exact absurd (hrun h1).1 hEne
      · exact absurd hcd0 (hpend.mp h2)
      · exact h3
    obtain ⟨hexec, hEne2, hafuE, htr, hfuts⟩ := hdf hstdf
    refine ⟨⟨r, hrec, hstdf, ?_⟩, htr⟩
    rw [observe_own _ (by rw [hafuE])]
  · intro k task_id fu tid picks r k1 c h hne hmark hrec hst hown hdep
      hset hbound hex
    obtain ⟨i, hi, e, he⟩ := hex
    have hEne : errsAll k.futs r.args r.kwargs ≠ [] :=
      errsAll_ne_nil (hdep ▸ hi) he
    cases hdn : (Store.get k.futs fu).done with
    | false =>
      rw [handle_update_eq_sweep_unset k task_id fu picks hdn] at h
      exact sweep_reaches_depfail task_id picks tid
        (errsAll k.futs r.args r.kwargs) hne hEne
        (k.tasks.map Prod.fst) k r k1 c hrec hst hown hdep hset hbound
        rfl (mem_keys_of_lookup hrec) h
    | true =>
      have hcase : k.lazy_fail = true
          ∨ ∃ v, Store.get k.futs fu = FutState.val v := by
        rcases hmark with h1 | h2
        · exact Or.inl h1
        · cases hg : Store.get k.futs fu with
          | unset =>
            rw [hg] at hdn
            simp [FutState.done] at hdn
          | val v => exact Or.inr ⟨v, rfl⟩
          | err e2 => exact absurd hg (h2 e2)
      rw [handle_update_eq_mark_sweep k task_id fu picks hdn hcase] at h
      have hrec2 : List.lookup tid
          (setTask k task_id
            (fun s => { s with status := States.done })).tasks
          = some r := by
        simp only [setTask_tasks]
        rw [lookup_updAt_ne _ _ _ (fun hh => hne hh.symm), hrec]
      exact sweep_reaches_depfail task_id picks tid
        (errsAll k.futs r.args r.kwargs) hne hEne
        ((setTask k task_id
          (fun s => { s with status := States.done })).tasks.map Prod.fst)
        (setTask k task_id (fun s => { s with status := States.done }))
        r k1 c hrec2 hst hown hdep hset hbound rfl
        (mem_keys_of_lookup hrec2) h

/-- Claim C1 witness: both halves evaluated concretely.  First half: a
second task submitted after its only dependency settled with an error is
dep-failed at submit time.  Second half: the completion callback on the
two-task run whose dependency errored dep-fails the pending task during
the sweep. -/
theorem c1_dep_failure_closure_witness :
    ((∃ r, List.lookup 1 demoE2.1.tasks = some r
        ∧ r.status = States.dep_fail
        ∧ AppFu.observe
            { parent := none,
              ownState := FutState.err (.depErr [.userErr 3]) }
            demoE2.1.futs
          = FutState.err
              (.depErr (errsAll demoE.futs [.base (.fut 0)] [])))
      ∧ demoE2.1.trace = demoE.trace)
    ∧ (((∃ r2, List.lookup 1 demoCres.1.tasks = some r2
          ∧ r2.status = States.dep_fail
          ∧ r2.app_fu.observe demoCres.1.futs
              = FutState.err
                  (.depErr (errsAll demoC.futs demoRec1.args
                    demoRec1.kwargs)))
        ∨ demoCres.2 ≠ none)
      ∧ tracesFor 1 demoCres.1.trace = tracesFor 1 demoC.trace) := by
  constructor
  · exact c1_dep_failure_closure.1 demoE 1 [.base (.fut 0)] []
      (.str "all") 0 demoE2.1 1
      { parent := none, ownState := FutState.err (.depErr [.userErr 3]) }
      rfl (by decide) ⟨0, by decide, .userErr 3, rfl⟩
  · exact c1_dep_failure_closure.2 demoC 0 0 1 (fun _ => 0) demoRec1
      demoCres.1 demoCres.2 rfl (by decide) (Or.inl rfl) rfl rfl rfl rfl
      (by decide) (by decide) ⟨0, by decide, .userErr 3, rfl⟩

end Parsl
